import Mathlib

/-!
Shallow embedding of `get_your_utils/python/clone_user.py` (the active variant
under the `python/` directory), the cross-environment user-cloning engine of
Get-Your-utils.

Modelling conventions:
* Database values are modelled by the inductive `Value` (integers, strings,
  booleans, NULL); a row is an association list from column name to value; a
  table is a list of rows; a database carries, per table name, its rows and its
  schema (ordered column list), mirroring the live-metadata introspection the
  script performs.
* A connection is modelled by its kind (psycopg2 / sqlite3), its closed flag
  and its database name; the committed/pending split of a connection's
  transactional state is the record `ConnState` (commit copies pending into
  committed, rollback copies committed into pending).
* Every SQL statement the script executes through a cursor is recorded in a
  per-connection trace (`Stmt`), together with the commit/rollback calls, so
  that frame and safety properties can be stated over the statements issued.
* Python exceptions raised inside the big `try:` of `run_clone` are modelled
  by `CloneErr`; the model threads the interpreter state through
  `Except (CloneErr × St) _` so that the state at the point of the exception
  (and hence the statements already executed) is preserved, exactly as the
  real `except:` handler observes it.
* Connection establishment from credential profiles (coftc-cred-man / GetFoco)
  is external to this repository; as `run_clone` itself allows, the embedding
  takes the two already-active connections (kind, database name, state) as
  inputs, plus the state of the auxiliary `getfoco_dev` store used for the
  template-password lookup when neither profile name ends in "dev".
* Store-assigned surrogate keys are modelled as one greater than the maximum
  integer id present in the table, which realises the only property the script
  relies on: a freshly assigned id differs from every id already in the table.
-/

namespace CloneUser

/-- A database value. -/
inductive Value where
  | int (n : Int)
  | str (s : String)
  | bool (b : Bool)
  | null
  deriving DecidableEq

/-- A row: association list from column name to value. -/
abbrev Row := List (String × Value)

/-- Read a column of a row (SQL column reference). -/
def rowGet (r : Row) (f : String) : Value :=
  match r.find? (fun p => p.1 == f) with
  | some p => p.2
  | none => Value.null

/-- A table: its rows, in insertion order. -/
structure Tab where
  rows : List Row
  deriving DecidableEq

/-- The id a store assigns to a newly inserted row: greater than every
integer id already present in the table. -/
def freshId (t : Tab) : Int :=
  (t.rows.map (fun r =>
    match rowGet r "id" with
    | Value.int n => n
    | _ => 0)).foldr max 0 + 1

/-- A database: tables and their schemas (ordered column lists), keyed by
table name. -/
structure DB where
  tabs : List (String × Tab)
  schemas : List (String × List String)
  deriving DecidableEq

/-- Replace the binding of a key in an association list (or append it). -/
def setAssoc (l : List (String × Tab)) (k : String) (v : Tab) :
    List (String × Tab) :=
  match l with
  | [] => [(k, v)]
  | (k', v') :: rest =>
    if k' == k then (k, v) :: rest else (k', v') :: setAssoc rest k v

/-- The table of a database (empty when absent). -/
def DB.tab (db : DB) (name : String) : Tab :=
  match db.tabs.find? (fun p => p.1 == name) with
  | some p => p.2
  | none => ⟨[]⟩

/-- The schema of a table (empty when absent). -/
def DB.schema (db : DB) (name : String) : List String :=
  match db.schemas.find? (fun p => p.1 == name) with
  | some p => p.2
  | none => []

/-- Update one table of a database. -/
def DB.setTab (db : DB) (name : String) (t : Tab) : DB :=
  { db with tabs := setAssoc db.tabs name t }

/-- Transactional state of one connection. -/
structure ConnState where
  committed : DB
  pending : DB
  deriving DecidableEq

/-- `conn.commit()`. -/
def ConnState.commit (c : ConnState) : ConnState := ⟨c.pending, c.pending⟩

/-- `conn.rollback()`. -/
def ConnState.rollback (c : ConnState) : ConnState := ⟨c.committed, c.committed⟩

/-- Kind of a database connection: psycopg2 (full server) or sqlite3
(local file). -/
inductive ConnKind where
  | pg
  | sqlite
  deriving DecidableEq

/-- A database connection as `conn_info` observes it. -/
structure Conn where
  kind : ConnKind
  closed : Bool
  dbname : String
  deriving DecidableEq

/-- `s.lower()` on Python strings (character-wise, kernel-computable). -/
def strLower (s : String) : String :=
  ⟨s.data.map Char.toLower⟩

/-- `pat in s` on Python strings. -/
def strContains (s pat : String) : Bool :=
  (List.range (s.toList.length + 1)).any
    (fun i => pat.toList.isPrefixOf (s.toList.drop i))

/-- `s.endswith(suf)` on Python strings. -/
def strEndsWith (s suf : String) : Bool :=
  suf.toList.isSuffixOf s.toList

/-- Output dict of `conn_info`. -/
structure ConnInfo where
  is_active : Bool
  type : String
  environment : String
  deriving DecidableEq

/-- `'dev' if 'dev' in dbName else 'prod' if 'prod' in dbName else 'unknown'`
(line 82); the caller lower-cases the name first (line 78). -/
def envOfDbName (dbName : String) : String :=
  if strContains dbName "dev" then "dev"
  else if strContains dbName "prod" then "prod"
  else "unknown"

/-- `conn_info` (clone_user.py lines 58-112): activity, kind and environment
class of a connection. -/
def conn_info : Option Conn → ConnInfo
  | none => ⟨false, "", ""⟩
  | some c =>
    match c.kind with
    | ConnKind.pg =>
      if !c.closed then ⟨true, "pg", envOfDbName (strLower c.dbname)⟩
      else ⟨false, "pg", "unknown"⟩
    | ConnKind.sqlite =>
      -- type and environment are set unconditionally (lines 94-100); the
      -- cursor test only decides is_active (lines 101-107)
      ⟨!c.closed, "sqlite", "local"⟩

/-- A statement / transaction operation executed on one connection. -/
inductive Stmt where
  | select (table : String)
  | insert (table : String) (n : Nat)
  | delete (table : String) (idField : String) (idVal : Value)
  | update (table : String)
  | commit
  | rollback
  deriving DecidableEq

/-- Is the statement a DELETE? -/
def isDeleteStmt : Stmt → Bool
  | Stmt.delete _ _ _ => true
  | _ => false

/-- Is the statement a write (INSERT / DELETE / UPDATE)? -/
def isWriteStmt : Stmt → Bool
  | Stmt.insert _ _ => true
  | Stmt.delete _ _ _ => true
  | Stmt.update _ => true
  | _ => false

/-- Is the statement a read (SELECT) or the rollback call? -/
def isSelectOrRollback : Stmt → Bool
  | Stmt.select _ => true
  | Stmt.rollback => true
  | _ => false

/-- Python exceptions raised inside the `try:` of `run_clone`. -/
inductive CloneErr where
  /-- `TypeError("More than one id exists for this user")` (line 225). -/
  | multipleUsers
  /-- `IndexError` from `userOut[0]` on an empty list (line 226). -/
  | userNotFound
  /-- `TypeError` from subscripting `devCursor.fetchone()` when the template
  account is absent (line 305). -/
  | templatePasswordMissing
  /-- `TypeError("There should only be one app_user record")` (line 416). -/
  | multipleUserRows
  /-- `TypeError("There should only be one app_address record")` (line 443). -/
  | multipleAddressRows
  /-- `ValueError` from `fieldList.index(f)` when `f` is absent. -/
  | missingField (f : String)
  /-- `TypeError` from subscripting `srcCursor.fetchone()` when the source
  address row is absent (lines 458, 510). -/
  | sourceAddressMissing
  /-- `TypeError` from subscripting `targetCursor.fetchone()` when the insert
  produced no result set (line 612 on a sqlite target). -/
  | fetchOnNoResult
  deriving DecidableEq

/-- The inputs of one `run_clone` call.  The two connections are taken as
already active (the function itself accepts pre-opened connections and skips
reconnection); `confirmAnswer` is the reply `Confirm.ask` would get;
`passwordClone` is the `PASSWORD_CLONE_ACCOUNT` secret; `devDB` is the state
of the store behind the auxiliary `getfoco_dev` profile. -/
structure CloneInput where
  source_profile : String
  target_profile : String
  source_email : String
  target_email : String
  interactive : Bool
  confirmAnswer : Bool
  passwordClone : String
  srcConn : Conn
  tgtConn : Conn
  srcDB : DB
  tgtDB : DB
  devDB : DB
  deriving DecidableEq

/-- Interpreter state threaded through the body of `run_clone`: the source
store (read, never written), the target connection state, the current
`targetUserId` variable and the statements executed so far on each
connection. -/
structure St where
  srcDB : DB
  tgt : ConnState
  targetUserId : Option Value
  srcTrace : List Stmt
  tgtTrace : List Stmt
  deriving DecidableEq

/-- `lower(v)` applied by SQL to a text column. -/
def valLower : Value → Value
  | Value.str s => Value.str (strLower s)
  | v => v

/-- A Python optional id, as bound as a query parameter (None ↦ NULL). -/
def optVal : Option Value → Value
  | some v => v
  | none => Value.null

/-- Lines 210-226: `select id from app_user where lower(email)=%s` with the
lower-cased source email, then the zero/multiple-match checks. -/
def lookupSrcUser (srcDB : DB) (source_email : String) :
    Except CloneErr Value :=
  let userOut := ((srcDB.tab "app_user").rows.filter
      (fun r => valLower (rowGet r "email") == Value.str (strLower source_email))
    ).map (fun r => rowGet r "id")
  if userOut.length > 1 then Except.error CloneErr.multipleUsers
  else
    match userOut with
    | [] => Except.error CloneErr.userNotFound
    | v :: _ => Except.ok v

/-- Lines 228-239: `select count(*) from app_user where id=%s` in the
target. -/
def userExistsIn (tgtDB : DB) (uid : Value) : Bool :=
  ((tgtDB.tab "app_user").rows.filter (fun r => rowGet r "id" == uid)).length
    > 0

/-- The overwrite condition of lines 260-266:
`srcEnv != targetEnv and targetEnv != 'prod' and
 (not interactive or (interactive and Confirm.ask(...)))`. -/
def overwriteDecision (srcEnv targetEnv : String)
    (interactive confirmAnswer : Bool) : Bool :=
  (srcEnv != targetEnv) && (targetEnv != "prod")
    && (!interactive || (interactive && confirmAnswer))

/-- Which store the template password is read from (lines 286-295). -/
structure DevSel where
  db : DB
  connStr : String
  /-- `some true`: the target cursor; `some false`: the source cursor;
  `none`: a short-lived auxiliary connection to `getfoco_dev`. -/
  cursor : Option Bool

/-- Lines 286-295: find a "dev" connection by profile-name suffix, else use
the auxiliary `getfoco_dev` store. -/
def resolveDevSource (inp : CloneInput) (tgtPending : DB) : DevSel :=
  if strEndsWith inp.target_profile "dev" then
    ⟨tgtPending, inp.tgtConn.dbname, some true⟩
  else if strEndsWith inp.source_profile "dev" then
    ⟨inp.srcDB, inp.srcConn.dbname, some false⟩
  else
    ⟨inp.devDB, "getfoco_dev", none⟩

/-- Lines 297-305: `select password from app_user where email=%s` with the
template-account email; subscripting `fetchone()` raises when absent. -/
def fetchTemplatePassword (db : DB) (acct : String) : Except CloneErr Value :=
  match (db.tab "app_user").rows.find?
      (fun r => rowGet r "email" == Value.str acct) with
  | some r => Except.ok (rowGet r "password")
  | none => Except.error CloneErr.templatePasswordMissing

/-- The fixed table list of lines 315-329, in application write order. -/
def tableList : List String :=
  ["app_user", "app_address", "app_household", "app_householdmembers",
   "app_eligibilityprogram", "app_iqprogram",
   "app_userhist", "app_addresshist", "app_householdhist",
   "app_householdmembershist", "app_eligibilityprogramhist",
   "app_iqprogramhist"]

/-- Lines 337-340 / 375-378: the owning-user field of a table. -/
def idFieldOf (table : String) : String :=
  if table == "app_user" then "id" else "user_id"

/-- `delete from table where idField=%s`. -/
def deleteFromTab (t : Tab) (idField : String) (v : Value) : Tab :=
  ⟨t.rows.filter (fun r => !(rowGet r idField == v))⟩

/-- Lines 333-354: walk `tableList` backward deleting the target user's rows,
then commit the deletions. -/
def deletePhase (tgt : ConnState) (uid : Value) : ConnState × List Stmt :=
  let out := tableList.reverse.foldl
    (fun (acc : ConnState × List Stmt) (table : String) =>
      let idField := idFieldOf table
      let t' := deleteFromTab (acc.1.pending.tab table) idField uid
      ({ acc.1 with pending := acc.1.pending.setTab table t' },
       acc.2 ++ [Stmt.delete table idField uid]))
    (tgt, [])
  (out.1.commit, out.2 ++ [Stmt.commit])

/-- `fieldList.index(f)`: position of the first occurrence, `ValueError`
when absent. -/
def fieldIndex (fl : List String) (f : String) : Except CloneErr Nat :=
  match fl with
  | [] => Except.error (CloneErr.missingField f)
  | g :: rest =>
    if g == f then Except.ok 0
    else
      match fieldIndex rest f with
      | Except.ok i => Except.ok (i + 1)
      | Except.error e => Except.error e

/-- `select {fieldList} from ...` applied to one row: the values in
field-list order. -/
def projectRow (fl : List String) (r : Row) : List Value :=
  fl.map (fun f => rowGet r f)

/-- Rebuild a row from a field list and the values in matching order
(`insert into t ({fieldList}) values (...)`). -/
def mkRow (fl : List String) (vals : List Value) : Row :=
  fl.zip vals

/-- Insert rows letting the store assign each id; returns the new table and
the assigned ids in insertion order (RETURNING clause / lastrowid). -/
def insertRowsFresh (t : Tab) (fl : List String) (rows : List (List Value)) :
    Tab × List Value :=
  rows.foldl
    (fun (acc : Tab × List Value) vals =>
      let nid := freshId acc.1
      (⟨acc.1.rows ++ [mkRow fl vals ++ [("id", Value.int nid)]]⟩,
       acc.2 ++ [Value.int nid]))
    (t, [])

/-- Lines 445-541, one `addtype` iteration: look up the content hash of the
source address, take the id of the target row with that hash if one exists;
else copy the writable columns of the source row into the target, take the
newly assigned id, and commit that insert immediately.  (The code re-queries
the source row by id at lines 493-510 with the writable column list; the
embedding projects the row already fetched, which is the same row.) -/
def resolveAddr (srcLocal : Bool) (st : St) (srcAddrId : Value) :
    Except (CloneErr × St) (Value × St) :=
  -- line 457: select address_sha1 from app_addressrd where id=%s (source)
  let st := { st with srcTrace := st.srcTrace ++ [Stmt.select "app_addressrd"] }
  match (st.srcDB.tab "app_addressrd").rows.find?
      (fun r => rowGet r "id" == srcAddrId) with
  | none => Except.error (CloneErr.sourceAddressMissing, st)
  | some srcRow =>
    let sha1Val := rowGet srcRow "address_sha1"
    -- line 472: select id from app_addressrd where address_sha1=%s (target)
    let st := { st with
      tgtTrace := st.tgtTrace ++ [Stmt.select "app_addressrd"] }
    match (st.tgt.pending.tab "app_addressrd").rows.find?
        (fun r => rowGet r "address_sha1" == sha1Val) with
    | some tgtRow => Except.ok (rowGet tgtRow "id", st)
    | none =>
      -- lines 476-491: writable columns of app_addressrd (source metadata)
      let addrFieldList :=
        (st.srcDB.schema "app_addressrd").filter (fun f => !(f == "id"))
      let st := { st with srcTrace := st.srcTrace ++
        [if srcLocal then Stmt.select "app_addressrd"
         else Stmt.select "information_schema.columns",
         Stmt.select "app_addressrd"] }
      -- lines 512-535: insert and take the assigned id
      let srcAddrOut := projectRow addrFieldList srcRow
      let tgtTab := st.tgt.pending.tab "app_addressrd"
      let nid := freshId tgtTab
      let newRow := mkRow addrFieldList srcAddrOut ++ [("id", Value.int nid)]
      let pending' := st.tgt.pending.setTab "app_addressrd"
        ⟨tgtTab.rows ++ [newRow]⟩
      -- line 538: commit this insert so the foreign keys will behave
      let tgt' := ConnState.commit ⟨st.tgt.committed, pending'⟩
      let trIns := st.tgtTrace ++ [Stmt.insert "app_addressrd" 1, Stmt.commit]
      let st := { st with tgt := tgt', tgtTrace := trIns }
      Except.ok (Value.int nid, st)

/-- Lines 412-428: rewrite email, password, phone number and is_archived in
the single app_user row. -/
def transformUserRow (target_email : String) (targetPassword : Value)
    (fl : List String) (vals : List Value) : Except CloneErr (List Value) :=
  match fieldIndex fl "email" with
  | Except.error e => Except.error e
  | Except.ok iE =>
  match fieldIndex fl "password" with
  | Except.error e => Except.error e
  | Except.ok iP =>
  match fieldIndex fl "phone_number" with
  | Except.error e => Except.error e
  | Except.ok iN =>
  match fieldIndex fl "is_archived" with
  | Except.error e => Except.error e
  | Except.ok iA =>
    Except.ok ((((vals.set iE (Value.str target_email)).set iP
      targetPassword).set iN (Value.str "+13035551234")).set iA
      (Value.bool true))

/-- Lines 543-612: insert the transformed rows into the target table.  When
the table carries the user id and `targetUserId` is known, the id column is
appended explicitly; otherwise the store assigns ids, and — for the user
table — lines 610-612 then read the assigned id from the cursor, which on a
sqlite target has no result set (`fetchone()` is `None`, so subscripting it
raises `TypeError`), after line 592 had already stored `lastrowid`. -/
def insertPhase (tgtLocal : Bool) (table : String) (fl : List String)
    (rows : List (List Value)) (st : St) : Except (CloneErr × St) St :=
  let idField := idFieldOf table
  if idField == "id" && !(st.targetUserId == none) then
    -- lines 547-573: explicit id (overwrite / same-id path)
    let v := optVal st.targetUserId
    let newRows := rows.map (fun vals => mkRow fl vals ++ [("id", v)])
    let t := st.tgt.pending.tab table
    Except.ok { st with
      tgt := { st.tgt with
        pending := st.tgt.pending.setTab table ⟨t.rows ++ newRows⟩ },
      tgtTrace := st.tgtTrace ++ [Stmt.insert table rows.length] }
  else
    -- lines 575-608: store-assigned ids
    let out := insertRowsFresh (st.tgt.pending.tab table) fl rows
    let st1 := { st with
      tgt := { st.tgt with pending := st.tgt.pending.setTab table out.1 },
      tgtTrace := st.tgtTrace ++ [Stmt.insert table rows.length] }
    -- lines 590-592: sqlite lastrowid for a new user
    let st2 :=
      if tgtLocal && idField == "id" then
        { st1 with targetUserId := out.2.getLast? }
      else st1
    -- lines 610-612: executed for both backend kinds
    if idField == "id" then
      if tgtLocal then Except.error (CloneErr.fetchOnNoResult, st2)
      else Except.ok { st2 with targetUserId := out.2.head? }
    else Except.ok st2

/-- Lines 357-612, one iteration of `for table in tableList`. -/
def processTable (inp : CloneInput) (srcLocal tgtLocal : Bool)
    (srcUserId : Value) (targetPassword : Value) (st : St) (table : String) :
    Except (CloneErr × St) St :=
  -- lines 359-373: writable columns, from the source store's metadata
  let fl := (st.srcDB.schema table).filter (fun f => !(f == "id"))
  let st := { st with srcTrace := st.srcTrace ++
    [if srcLocal then Stmt.select table
     else Stmt.select "information_schema.columns"] }
  let idField := idFieldOf table
  -- lines 380-398: all source rows for the owning user id
  let st := { st with srcTrace := st.srcTrace ++ [Stmt.select table] }
  let dbOut := ((st.srcDB.tab table).rows.filter
      (fun r => rowGet r idField == srcUserId)).map (projectRow fl)
  -- lines 408-409: skip the table when it has no rows
  if dbOut.length == 0 then Except.ok st
  else if table == "app_user" then
    -- lines 412-428
    if dbOut.length > 1 then Except.error (CloneErr.multipleUserRows, st)
    else
      match transformUserRow inp.target_email targetPassword fl
          (dbOut.headD []) with
      | Except.error e => Except.error (e, st)
      | Except.ok row1 => insertPhase tgtLocal table fl [row1] st
  else
    -- lines 430-436: thread the target id into user_id when it differs
    match
      (if !(st.targetUserId == some srcUserId) then
        match fieldIndex fl "user_id" with
        | Except.error e => Except.error e
        | Except.ok iU =>
          Except.ok (dbOut.map (fun vals =>
            vals.set iU (optVal st.targetUserId)))
      else Except.ok dbOut : Except CloneErr (List (List Value))) with
    | Except.error e => Except.error (e, st)
    | Except.ok dbOut1 =>
      if table == "app_address" then
        -- lines 439-541
        if dbOut1.length > 1 then
          Except.error (CloneErr.multipleAddressRows, st)
        else
          let row0 := dbOut1.headD []
          match fieldIndex fl "eligibility_address_id" with
          | Except.error e => Except.error (e, st)
          | Except.ok iE =>
            match resolveAddr srcLocal st (row0.getD iE Value.null) with
            | Except.error es => Except.error es
            | Except.ok (aE, st) =>
              let row0 := row0.set iE aE
              match fieldIndex fl "mailing_address_id" with
              | Except.error e => Except.error (e, st)
              | Except.ok iM =>
                match resolveAddr srcLocal st (row0.getD iM Value.null) with
                | Except.error es => Except.error es
                | Except.ok (aM, st) =>
                  insertPhase tgtLocal table fl [row0.set iM aM] st
      else insertPhase tgtLocal table fl dbOut1 st

/-- The `for table in tableList` loop of lines 357-612. -/
def cloneLoop (inp : CloneInput) (srcLocal tgtLocal : Bool)
    (srcUserId : Value) (targetPassword : Value) :
    List String → St → Except (CloneErr × St) St
  | [], st => Except.ok st
  | t :: rest, st =>
    match processTable inp srcLocal tgtLocal srcUserId targetPassword st t with
    | Except.error es => Except.error es
    | Except.ok st' =>
      cloneLoop inp srcLocal tgtLocal srcUserId targetPassword rest st'

/-- The interpreter state at the top of the `try:` block. -/
def initSt (inp : CloneInput) : St :=
  { srcDB := inp.srcDB, tgt := ⟨inp.tgtDB, inp.tgtDB⟩,
    targetUserId := none, srcTrace := [], tgtTrace := [] }

/-- Lines 210-354 of `run_clone`: source-user resolution, target-existence
check, the overwrite decision, the template-password lookup, and the
(possibly skipped) deletion phase.  Returns the source user id, the template
password and the state at the start of the per-table loop. -/
def cloneSetup (inp : CloneInput) : Except (CloneErr × St) (Value × Value × St) :=
  let srcEnv := (conn_info (some inp.srcConn)).environment
  let targetEnv := (conn_info (some inp.tgtConn)).environment
  let st0 : St := initSt inp
  -- lines 210-226
  let st1 := { st0 with srcTrace := st0.srcTrace ++ [Stmt.select "app_user"] }
  match lookupSrcUser inp.srcDB inp.source_email with
  | Except.error e => Except.error (e, st1)
  | Except.ok srcUserId =>
    -- lines 228-239
    let st2 :=
      { st1 with tgtTrace := st1.tgtTrace ++ [Stmt.select "app_user"] }
    let userExists0 := userExistsIn inp.tgtDB srcUserId
    -- lines 241-277
    let dec :=
      if userExists0 then
        -- line 253: fetch the duplicate email to display in the prompt
        let stA :=
          { st2 with tgtTrace := st2.tgtTrace ++ [Stmt.select "app_user"] }
        if overwriteDecision srcEnv targetEnv inp.interactive
            inp.confirmAnswer then
          (stA, (some srcUserId : Option Value), true)
        else
          -- lines 268-273: spoof userExists to False; new identity
          (stA, (none : Option Value), false)
      else
        -- lines 275-277: id does not exist in target; use the source id
        (st2, (some srcUserId : Option Value), false)
    let st3 := { dec.1 with targetUserId := dec.2.1 }
    let userExists := dec.2.2
    -- lines 283-305: template password
    let devsel := resolveDevSource inp st3.tgt.pending
    let st4 :=
      match devsel.cursor with
      | some true =>
        { st3 with tgtTrace := st3.tgtTrace ++ [Stmt.select "app_user"] }
      | some false =>
        { st3 with srcTrace := st3.srcTrace ++ [Stmt.select "app_user"] }
      | none => st3
    match fetchTemplatePassword devsel.db inp.passwordClone with
    | Except.error e => Except.error (e, st4)
    | Except.ok targetPassword =>
      -- lines 331-354: remove the user from the target, as a safety *never*
      -- when the target profile name ends in "prod"
      let st5 :=
        if userExists && !(strEndsWith inp.target_profile "prod") then
          let out := deletePhase st4.tgt (optVal st4.targetUserId)
          { st4 with tgt := out.1, tgtTrace := st4.tgtTrace ++ out.2 }
        else st4
      Except.ok (srcUserId, targetPassword, st5)

/-- The whole `try:` body of `run_clone` (lines 210-612). -/
def cloneBody (inp : CloneInput) : Except (CloneErr × St) St :=
  let srcLocal := (conn_info (some inp.srcConn)).type == "sqlite"
  let tgtLocal := (conn_info (some inp.tgtConn)).type == "sqlite"
  match cloneSetup inp with
  | Except.error es => Except.error es
  | Except.ok (srcUserId, targetPassword, st) =>
    cloneLoop inp srcLocal tgtLocal srcUserId targetPassword tableList st

deriving instance DecidableEq for Except

/-- Observable result of one `run_clone` call: the outcome (the exception, or
the final `targetUserId` the function reports), the final source store, the
final target connection state, and the statements executed on each
connection. -/
structure CloneResult where
  outcome : Except CloneErr (Option Value)
  srcDB : DB
  tgt : ConnState
  srcTrace : List Stmt
  tgtTrace : List Stmt
  deriving DecidableEq

/-- `run_clone` (clone_user.py lines 115-648): on an exception both
connections are rolled back and the exception propagates (lines 614-618); on
success the target connection is committed once more for the final inserts
(lines 620-622). -/
def run_clone (inp : CloneInput) : CloneResult :=
  match cloneBody inp with
  | Except.error (e, st) =>
    { outcome := Except.error e, srcDB := st.srcDB,
      tgt := st.tgt.rollback,
      srcTrace := st.srcTrace ++ [Stmt.rollback],
      tgtTrace := st.tgtTrace ++ [Stmt.rollback] }
  | Except.ok st =>
    { outcome := Except.ok st.targetUserId, srcDB := st.srcDB,
      tgt := st.tgt.commit,
      srcTrace := st.srcTrace,
      tgtTrace := st.tgtTrace ++ [Stmt.commit] }

/-! Concrete stores used to instantiate the theorems. -/

/-- A source user row with id 42. -/
def userRow42 : Row :=
  [("id", Value.int 42), ("email", Value.str "a@x.com"),
   ("password", Value.str "srcpw"),
   ("phone_number", Value.str "+19705550000"),
   ("is_archived", Value.bool false)]

/-- A pre-existing target user row with id 42 and a different email. -/
def tgtRow42 : Row :=
  [("id", Value.int 42), ("email", Value.str "other@x.com"),
   ("password", Value.str "otherpw"),
   ("phone_number", Value.str "+19705550001"),
   ("is_archived", Value.bool false)]

/-- The template ("clone") account row. -/
def tplRow : Row :=
  [("id", Value.int 7), ("email", Value.str "tpl@x.com"),
   ("password", Value.str "tplhash")]

/-- Schemas of the tables exercised by the concrete inputs. -/
def schemasStd : List (String × List String) :=
  [("app_user", ["id", "email", "password", "phone_number", "is_archived"]),
   ("app_address",
    ["id", "user_id", "eligibility_address_id", "mailing_address_id"]),
   ("app_addressrd", ["id", "address_sha1", "address"]),
   ("app_household", ["id", "user_id", "data"])]

/-- A minimal source store holding only user 42. -/
def srcDBStd : DB := ⟨[("app_user", ⟨[userRow42]⟩)], schemasStd⟩

/-- The auxiliary `getfoco_dev` store holding the template account. -/
def devDBStd : DB := ⟨[("app_user", ⟨[tplRow]⟩)], []⟩

/-- An open full-server connection with the given database name. -/
def pgConn (name : String) : Conn := ⟨ConnKind.pg, false, name⟩

/-- An open local-file connection. -/
def liteConn : Conn := ⟨ConnKind.sqlite, false, "db.sqlite3"⟩

/-- C1 counterexample input: the overwrite condition of lines 260-266 holds
(environments "dev" vs "unknown", non-interactive), the user exists in the
target, but the target profile name ends in "prod", so the deletion of lines
333-354 is skipped. -/
def inpC1 : CloneInput :=
  { source_profile := "getfoco_a", target_profile := "getfoco_prod",
    source_email := "a@x.com", target_email := "new@x.com",
    interactive := false, confirmAnswer := false,
    passwordClone := "tpl@x.com",
    srcConn := pgConn "getfoco_dev", tgtConn := pgConn "getfoco",
    srcDB := srcDBStd, tgtDB := ⟨[("app_user", ⟨[tgtRow42]⟩)], schemasStd⟩,
    devDB := devDBStd }

/-- C3 counterexample input: non-interactive, user 42 exists in the target
with a different email, environments "prod" vs "dev". -/
def inpC3 : CloneInput :=
  { source_profile := "getfoco_prod", target_profile := "getfoco_a",
    source_email := "a@x.com", target_email := "new@x.com",
    interactive := false, confirmAnswer := false,
    passwordClone := "tpl@x.com",
    srcConn := pgConn "getfoco_prod", tgtConn := pgConn "getfoco_dev",
    srcDB := srcDBStd, tgtDB := ⟨[("app_user", ⟨[tgtRow42]⟩)], schemasStd⟩,
    devDB := devDBStd }

/-- C4 counterexample input: the source user has an address record whose
eligibility address is missing from the target (so its insert is committed
mid-loop) and whose mailing address is missing from the source (so the next
fetch raises). -/
def inpC4 : CloneInput :=
  { source_profile := "getfoco_a", target_profile := "getfoco_b",
    source_email := "a@x.com", target_email := "new@x.com",
    interactive := true, confirmAnswer := true,
    passwordClone := "tpl@x.com",
    srcConn := pgConn "getfoco_dev", tgtConn := pgConn "getfoco_qa",
    srcDB :=
      ⟨[("app_user", ⟨[userRow42]⟩),
        ("app_address",
         ⟨[[("id", Value.int 1), ("user_id", Value.int 42),
            ("eligibility_address_id", Value.int 5),
            ("mailing_address_id", Value.int 6)]]⟩),
        ("app_addressrd",
         ⟨[[("id", Value.int 5), ("address_sha1", Value.str "H1"),
            ("address", Value.str "123 Main St")]]⟩)],
       schemasStd⟩,
    tgtDB := ⟨[("app_user", ⟨[]⟩), ("app_addressrd", ⟨[]⟩)], schemasStd⟩,
    devDB := devDBStd }

/-- C7 failing input: sqlite target, user 42 already in the target, overwrite
declined at the interactive prompt, so a new identity must be assigned by the
sqlite store. -/
def inpC7 : CloneInput :=
  { source_profile := "getfoco_dev", target_profile := "getfoco_local",
    source_email := "a@x.com", target_email := "new@x.com",
    interactive := true, confirmAnswer := false,
    passwordClone := "tpl@x.com",
    srcConn := pgConn "getfoco_dev", tgtConn := liteConn,
    srcDB := ⟨[("app_user", ⟨[userRow42, tplRow]⟩)], schemasStd⟩,
    tgtDB := ⟨[("app_user", ⟨[tgtRow42]⟩)], schemasStd⟩,
    devDB := devDBStd }

/-! Supporting lemmas. -/

theorem find_setAssoc_self (l : List (String × Tab)) (k : String) (t : Tab) :
    (setAssoc l k t).find? (fun p => p.1 == k) = some (k, t) := by
  induction l with
  | nil => simp [setAssoc]
  | cons hd tl ih =>
    obtain ⟨k', v'⟩ := hd
    simp only [setAssoc]
    by_cases h : k' = k
    · subst h
      simp
    · have hb : (k' == k) = false := by simpa using h
      simp [hb, ih]

theorem find_setAssoc_ne (l : List (String × Tab)) (k m : String) (t : Tab)
    (h : m ≠ k) :
    (setAssoc l k t).find? (fun p => p.1 == m)
      = l.find? (fun p => p.1 == m) := by
  induction l with
  | nil =>
    have hb : (k == m) = false := by simpa using (Ne.symm h)
    simp [setAssoc, hb]
  | cons hd tl ih =>
    obtain ⟨k', v'⟩ := hd
    simp only [setAssoc]
    by_cases hk : k' = k
    · subst hk
      have hb : (k' == m) = false := by simpa using (Ne.symm h)
      simp [hb]
    · have hb : (k' == k) = false := by simpa using hk
      by_cases hm : k' = m
      · subst hm
        simp [hb]
      · have hbm : (k' == m) = false := by simpa using hm
        simp [hb, hbm, ih]

theorem tab_setTab_self (db : DB) (n : String) (t : Tab) :
    (db.setTab n t).tab n = t := by
  unfold DB.tab DB.setTab
  simp [find_setAssoc_self]

theorem tab_setTab_ne (db : DB) (n m : String) (t : Tab) (h : m ≠ n) :
    (db.setTab n t).tab m = db.tab m := by
  unfold DB.tab DB.setTab
  simp [find_setAssoc_ne _ _ _ _ h]

theorem setTab_schema (db : DB) (n : String) (t : Tab) (m : String) :
    (db.setTab n t).schema m = db.schema m := by
  unfold DB.schema DB.setTab
  simp

theorem getD_set_self {α : Type} (l : List α) (i : Nat) (v d : α)
    (h : i < l.length) : (l.set i v).getD i d = v := by
  induction l generalizing i with
  | nil => simp at h
  | cons a tl ih =>
    cases i with
    | zero => simp
    | succ n =>
      have := ih n (by simpa using h)
      simpa using this

theorem getD_set_ne {α : Type} (l : List α) (i j : Nat) (v d : α)
    (h : i ≠ j) : (l.set i v).getD j d = l.getD j d := by
  induction l generalizing i j with
  | nil => simp
  | cons a tl ih =>
    cases i with
    | zero =>
      cases j with
      | zero => exact absurd rfl h
      | succ m => simp
    | succ n =>
      cases j with
      | zero => simp
      | succ m =>
        have := ih n m (by omega)
        simpa using this

theorem fieldIndex_lt (fl : List String) (f : String) (i : Nat)
    (h : fieldIndex fl f = Except.ok i) : i < fl.length := by
  induction fl generalizing i with
  | nil => simp [fieldIndex] at h
  | cons g rest ih =>
    simp only [fieldIndex] at h
    by_cases hg : (g == f) = true
    · rw [if_pos hg] at h
      injection h with h
      subst h
      simp
    · rw [if_neg hg] at h
      cases hr : fieldIndex rest f with
      | ok j =>
        rw [hr] at h
        injection h with h
        have := ih j hr
        simp only [List.length_cons]
        omega
      | error e =>
        rw [hr] at h
        simp at h

theorem fieldIndex_getD (fl : List String) (f : String) (i : Nat)
    (h : fieldIndex fl f = Except.ok i) : fl.getD i "" = f := by
  induction fl generalizing i with
  | nil => simp [fieldIndex] at h
  | cons g rest ih =>
    simp only [fieldIndex] at h
    by_cases hg : (g == f) = true
    · simp [hg] at h
      subst h
      simpa using hg
    · simp only [hg, if_neg] at h
      cases hr : fieldIndex rest f with
      | ok j =>
        rw [hr] at h
        simp at h
        subst h
        simpa using ih j hr
      | error e =>
        rw [hr] at h
        simp at h

theorem fieldIndex_ne (fl : List String) (f g : String) (i j : Nat)
    (hf : fieldIndex fl f = Except.ok i) (hg : fieldIndex fl g = Except.ok j)
    (hfg : f ≠ g) : i ≠ j := by
  intro hij
  subst hij
  exact hfg ((fieldIndex_getD fl f i hf).symm.trans (fieldIndex_getD fl g i hg))

theorem rowGet_zip_append (fl : List String) (vals : List Value) (f : String)
    (i : Nat) (suf : Row) (h : fieldIndex fl f = Except.ok i)
    (hl : vals.length = fl.length) :
    rowGet (mkRow fl vals ++ suf) f = vals.getD i Value.null := by
  induction fl generalizing vals i with
  | nil => simp [fieldIndex] at h
  | cons g rest ih =>
    cases vals with
    | nil => simp at hl
    | cons v vs =>
      simp only [fieldIndex] at h
      by_cases hg : (g == f) = true
      · simp only [hg, if_pos] at h
        simp at h
        subst h
        simp [mkRow, rowGet, hg]
      · simp only [hg, if_neg] at h
        cases hr : fieldIndex rest f with
        | ok j =>
          rw [hr] at h
          simp at h
          subst h
          have := ih vs j hr (by simpa using hl)
          simpa [mkRow, rowGet, hg] using this
        | error e =>
          rw [hr] at h
          simp at h

/-- Source-side frame between two interpreter states: the source store is
unchanged and only SELECTs were added to the source trace. -/
def SrcInv (st st' : St) : Prop :=
  st'.srcDB = st.srcDB ∧
  ∃ d, st'.srcTrace = st.srcTrace ++ d ∧ ∀ s ∈ d, ∃ t, s = Stmt.select t

/-- Target-side frame of the per-table loop: no DELETE was added to the
target trace, and the committed state only moves when a commit was issued. -/
def TgtLoopInv (st st' : St) : Prop :=
  ∃ d, st'.tgtTrace = st.tgtTrace ++ d ∧
    (∀ s ∈ d, isDeleteStmt s = false) ∧
    (Stmt.commit ∉ d → st'.tgt.committed = st.tgt.committed)

theorem srcInv_refl (st : St) : SrcInv st st :=
  ⟨rfl, [], by simp, by simp⟩

theorem tgtLoopInv_refl (st : St) : TgtLoopInv st st :=
  ⟨[], by simp, by simp, fun _ => rfl⟩

theorem srcInv_trans {s1 s2 s3 : St} (h1 : SrcInv s1 s2) (h2 : SrcInv s2 s3) :
    SrcInv s1 s3 := by
  obtain ⟨hdb1, d1, ht1, ha1⟩ := h1
  obtain ⟨hdb2, d2, ht2, ha2⟩ := h2
  refine ⟨hdb2.trans hdb1, d1 ++ d2, ?_, ?_⟩
  · rw [ht2, ht1, List.append_assoc]
  · intro s hs
    rcases List.mem_append.mp hs with h | h
    · exact ha1 s h
    · exact ha2 s h

theorem tgtLoopInv_trans {s1 s2 s3 : St} (h1 : TgtLoopInv s1 s2)
    (h2 : TgtLoopInv s2 s3) : TgtLoopInv s1 s3 := by
  obtain ⟨d1, ht1, ha1, hc1⟩ := h1
  obtain ⟨d2, ht2, ha2, hc2⟩ := h2
  refine ⟨d1 ++ d2, ?_, ?_, ?_⟩
  · rw [ht2, ht1, List.append_assoc]
  · intro s hs
    rcases List.mem_append.mp hs with h | h
    · exact ha1 s h
    · exact ha2 s h
  · intro hn
    rw [List.mem_append] at hn
    push_neg at hn
    exact (hc2 hn.2).trans (hc1 hn.1)

/-- Final interpreter state of a loop-shaped result. -/
def outSt : Except (CloneErr × St) St → St
  | Except.ok st => st
  | Except.error es => es.2

/-- Final interpreter state of a value-returning step. -/
def outStP {α : Type} : Except (CloneErr × St) (α × St) → St
  | Except.ok p => p.2
  | Except.error es => es.2

/-- Final interpreter state of the setup phase. -/
def outSt3 : Except (CloneErr × St) (Value × Value × St) → St
  | Except.ok t => t.2.2
  | Except.error es => es.2

theorem resolveAddr_inv (srcLocal : Bool) (st : St) (v : Value) :
    SrcInv st (outStP (resolveAddr srcLocal st v)) ∧
    TgtLoopInv st (outStP (resolveAddr srcLocal st v)) ∧
    (outStP (resolveAddr srcLocal st v)).targetUserId = st.targetUserId := by
  simp only [resolveAddr]
  cases h1 : (st.srcDB.tab "app_addressrd").rows.find?
      (fun r => rowGet r "id" == v) with
  | none =>
    dsimp only [outStP]
    refine ⟨⟨rfl, [Stmt.select "app_addressrd"], rfl, ?_⟩,
      tgtLoopInv_refl _, rfl⟩
    intro s hs
    simp at hs
    exact ⟨_, hs⟩
  | some srcRow =>
    dsimp only
    cases h2 : (st.tgt.pending.tab "app_addressrd").rows.find?
        (fun r => rowGet r "address_sha1" == rowGet srcRow "address_sha1") with
    | some tgtRow =>
      dsimp only [outStP]
      refine ⟨⟨rfl, [Stmt.select "app_addressrd"], rfl, ?_⟩,
        ⟨[Stmt.select "app_addressrd"], rfl, ?_, fun _ => rfl⟩, rfl⟩
      · intro s hs
        simp at hs
        exact ⟨_, hs⟩
      · intro s hs
        simp at hs
        subst hs
        rfl
    | none =>
      dsimp only [outStP]
      refine ⟨⟨rfl,
        [Stmt.select "app_addressrd",
         if srcLocal then Stmt.select "app_addressrd"
         else Stmt.select "information_schema.columns",
         Stmt.select "app_addressrd"], by simp, ?_⟩,
        ⟨[Stmt.select "app_addressrd", Stmt.insert "app_addressrd" 1,
          Stmt.commit], by simp, ?_, ?_⟩, rfl⟩
      · intro s hs
        simp at hs
        rcases hs with h | h | h
        · exact ⟨_, h⟩
        · cases srcLocal <;> simp at h <;> exact ⟨_, h⟩
        · exact ⟨_, h⟩
      · intro s hs
        simp at hs
        rcases hs with rfl | rfl | rfl <;> rfl
      · intro hn
        exact absurd (by simp) hn

theorem insertPhase_inv (tgtLocal : Bool) (table : String) (fl : List String)
    (rows : List (List Value)) (st : St) :
    SrcInv st (outSt (insertPhase tgtLocal table fl rows st)) ∧
    TgtLoopInv st (outSt (insertPhase tgtLocal table fl rows st)) := by
  have hsrc : ∀ st' : St, st'.srcDB = st.srcDB → st'.srcTrace = st.srcTrace →
      SrcInv st st' := fun st' h1 h2 => ⟨h1, [], by simp [h2], by simp⟩
  have htgt : ∀ st' : St,
      st'.tgtTrace = st.tgtTrace ++ [Stmt.insert table rows.length] →
      st'.tgt.committed = st.tgt.committed → TgtLoopInv st st' :=
    fun st' h1 h2 =>
      ⟨[Stmt.insert table rows.length], h1, by simp [isDeleteStmt],
       fun _ => h2⟩
  simp only [insertPhase]
  cases hid : (idFieldOf table == "id") <;> cases hl : tgtLocal <;>
    cases ht : (st.targetUserId == none) <;>
    simp [hid, hl, ht] <;>
    dsimp only [outSt] <;>
    exact ⟨hsrc _ rfl rfl, htgt _ rfl rfl⟩

theorem resolveAddr_inv_ok {srcLocal : Bool} {st : St} {v a : Value}
    {st' : St} (h : resolveAddr srcLocal st v = Except.ok (a, st')) :
    SrcInv st st' ∧ TgtLoopInv st st' ∧ st'.targetUserId = st.targetUserId := by
  have hh := resolveAddr_inv srcLocal st v
  rw [h] at hh
  simpa [outStP] using hh

theorem resolveAddr_inv_err {srcLocal : Bool} {st : St} {v : Value}
    {es : CloneErr × St}
    (h : resolveAddr srcLocal st v = Except.error es) :
    SrcInv st es.2 ∧ TgtLoopInv st es.2 ∧
      es.2.targetUserId = st.targetUserId := by
  have hh := resolveAddr_inv srcLocal st v
  rw [h] at hh
  exact hh

theorem processTable_inv (inp : CloneInput) (srcLocal tgtLocal : Bool)
    (u pw : Value) (st : St) (table : String) :
    SrcInv st (outSt (processTable inp srcLocal tgtLocal u pw st table)) ∧
    TgtLoopInv st (outSt (processTable inp srcLocal tgtLocal u pw st table))
    := by
  have hselm : ∀ s ∈ [(if srcLocal then Stmt.select table
      else Stmt.select "information_schema.columns"), Stmt.select table],
      ∃ t, s = Stmt.select t := by
    intro s hs
    simp at hs
    rcases hs with h | h
    · cases srcLocal <;> simp at h <;> exact ⟨_, h⟩
    · exact ⟨_, h⟩
  have hbase : SrcInv st { st with srcTrace := st.srcTrace ++
        [(if srcLocal then Stmt.select table
          else Stmt.select "information_schema.columns")] ++ [Stmt.select table] }
      ∧ TgtLoopInv st { st with srcTrace := st.srcTrace ++
        [(if srcLocal then Stmt.select table
          else Stmt.select "information_schema.columns")] ++ [Stmt.select table] }
      := ⟨⟨rfl, [(if srcLocal then Stmt.select table
          else Stmt.select "information_schema.columns"), Stmt.select table],
          by simp, hselm⟩, ⟨[], by simp, by simp, fun _ => rfl⟩⟩
  simp only [processTable]
  split
  · -- zero source rows: the table is skipped
    dsimp only [outSt]
    exact hbase
  · split
    · -- the app_user table
      split
      · -- more than one app_user record
        dsimp only [outSt]
        exact hbase
      · split
        · -- transformUserRow raised
          dsimp only [outSt]
          exact hbase
        · -- transformed row handed to the insert phase
          rename_i row1 heq
          exact ⟨srcInv_trans hbase.1
              (insertPhase_inv tgtLocal table _ [row1] _).1,
            tgtLoopInv_trans hbase.2
              (insertPhase_inv tgtLocal table _ [row1] _).2⟩
    · split
      · -- rewriting user_id raised
        dsimp only [outSt]
        exact hbase
      · split
        · -- the app_address table
          split
          · -- more than one app_address record
            dsimp only [outSt]
            exact hbase
          · split
            · -- fieldIndex eligibility_address_id raised
              dsimp only [outSt]
              exact hbase
            · split
              · -- first resolveAddr raised
                rename_i es heq
                have h := resolveAddr_inv_err heq
                dsimp only [outSt]
                exact ⟨srcInv_trans hbase.1 h.1,
                  tgtLoopInv_trans hbase.2 h.2.1⟩
              · rename_i aE stB heq
                have h := resolveAddr_inv_ok heq
                split
                · -- fieldIndex mailing_address_id raised
                  dsimp only [outSt]
                  exact ⟨srcInv_trans hbase.1 h.1,
                    tgtLoopInv_trans hbase.2 h.2.1⟩
                · split
                  · -- second resolveAddr raised
                    rename_i es2 heq2
                    have h2 := resolveAddr_inv_err heq2
                    dsimp only [outSt]
                    exact ⟨srcInv_trans (srcInv_trans
                        hbase.1 h.1) h2.1,
                      tgtLoopInv_trans (tgtLoopInv_trans
                        hbase.2 h.2.1) h2.2.1⟩
                  · rename_i aM stC heq2
                    have h2 := resolveAddr_inv_ok heq2
                    exact ⟨srcInv_trans (srcInv_trans (srcInv_trans
                        hbase.1 h.1) h2.1)
                        (insertPhase_inv tgtLocal table _ _ stC).1,
                      tgtLoopInv_trans (tgtLoopInv_trans (tgtLoopInv_trans
                        hbase.2 h.2.1) h2.2.1)
                        (insertPhase_inv tgtLocal table _ _ stC).2⟩
        · -- any other dependent table
          exact ⟨srcInv_trans hbase.1
              (insertPhase_inv tgtLocal table _ _ _).1,
            tgtLoopInv_trans hbase.2
              (insertPhase_inv tgtLocal table _ _ _).2⟩

theorem cloneLoop_inv (inp : CloneInput) (srcLocal tgtLocal : Bool)
    (u pw : Value) (ts : List String) (st : St) :
    SrcInv st (outSt (cloneLoop inp srcLocal tgtLocal u pw ts st)) ∧
    TgtLoopInv st (outSt (cloneLoop inp srcLocal tgtLocal u pw ts st)) := by
  induction ts generalizing st with
  | nil => exact ⟨srcInv_refl st, tgtLoopInv_refl st⟩
  | cons t rest ih =>
    simp only [cloneLoop]
    cases h : processTable inp srcLocal tgtLocal u pw st t with
    | error es =>
      have hp := processTable_inv inp srcLocal tgtLocal u pw st t
      rw [h] at hp
      dsimp only [outSt] at hp ⊢
      exact hp
    | ok st' =>
      have hp := processTable_inv inp srcLocal tgtLocal u pw st t
      rw [h] at hp
      dsimp only [outSt] at hp
      exact ⟨srcInv_trans hp.1 (ih st').1, tgtLoopInv_trans hp.2 (ih st').2⟩

theorem cloneSetup_spec (inp : CloneInput) (u pw : Value)
    (hl : lookupSrcUser inp.srcDB inp.source_email = Except.ok u)
    (hp : fetchTemplatePassword (resolveDevSource inp inp.tgtDB).db
        inp.passwordClone = Except.ok pw) :
    ∃ st', cloneSetup inp = Except.ok (u, pw, st') ∧
      st'.srcDB = inp.srcDB ∧
      (∀ s ∈ st'.srcTrace, ∃ t, s = Stmt.select t) ∧
      st'.targetUserId = (if userExistsIn inp.tgtDB u
        then (if overwriteDecision (conn_info (some inp.srcConn)).environment
            (conn_info (some inp.tgtConn)).environment inp.interactive
            inp.confirmAnswer then some u else none)
        else some u) ∧
      (if (userExistsIn inp.tgtDB u &&
            (overwriteDecision (conn_info (some inp.srcConn)).environment
              (conn_info (some inp.tgtConn)).environment inp.interactive
              inp.confirmAnswer &&
             !(strEndsWith inp.target_profile "prod"))) = true
       then st'.tgt = (deletePhase ⟨inp.tgtDB, inp.tgtDB⟩ u).1 ∧
         ∃ d0, st'.tgtTrace = d0 ++ (deletePhase ⟨inp.tgtDB, inp.tgtDB⟩ u).2 ∧
           ∀ s ∈ d0, ∃ t, s = Stmt.select t
       else st'.tgt = ⟨inp.tgtDB, inp.tgtDB⟩ ∧
         ∀ s ∈ st'.tgtTrace, ∃ t, s = Stmt.select t) := by
  have hsel : ∀ (l : List Stmt), (∀ s ∈ l, s = Stmt.select "app_user") →
      ∀ s ∈ l, ∃ t, s = Stmt.select t :=
    fun l h s hs => ⟨"app_user", h s hs⟩
  simp only [cloneSetup, initSt]
  rw [hl]
  cases he : userExistsIn inp.tgtDB u <;>
    cases hd : overwriteDecision (conn_info (some inp.srcConn)).environment
      (conn_info (some inp.tgtConn)).environment inp.interactive
      inp.confirmAnswer <;>
    simp only [he, hd, Bool.false_eq_true, if_false, if_true, Bool.false_and,
      Bool.true_and, Bool.and_false, Bool.and_true, Bool.not_true,
      Bool.not_false]
  case false.false =>
    rw [hp]
    cases hc : (resolveDevSource inp inp.tgtDB).cursor with
    | none => exact ⟨_, rfl, rfl, hsel _ (by simp), rfl, rfl, hsel _ (by simp)⟩
    | some b =>
      cases b <;>
        exact ⟨_, rfl, rfl, hsel _ (by simp), rfl, rfl, hsel _ (by simp)⟩
  case false.true =>
    rw [hp]
    cases hc : (resolveDevSource inp inp.tgtDB).cursor with
    | none => exact ⟨_, rfl, rfl, hsel _ (by simp), rfl, rfl, hsel _ (by simp)⟩
    | some b =>
      cases b <;>
        exact ⟨_, rfl, rfl, hsel _ (by simp), rfl, rfl, hsel _ (by simp)⟩
  case true.false =>
    rw [hp]
    cases hc : (resolveDevSource inp inp.tgtDB).cursor with
    | none => exact ⟨_, rfl, rfl, hsel _ (by simp), rfl, rfl, hsel _ (by simp)⟩
    | some b =>
      cases b <;>
        exact ⟨_, rfl, rfl, hsel _ (by simp), rfl, rfl, hsel _ (by simp)⟩
  case true.true =>
    rw [hp]
    cases hs : strEndsWith inp.target_profile "prod" <;>
      simp only [hs, Bool.not_true, Bool.not_false, Bool.and_false,
        Bool.and_true, Bool.true_and, Bool.false_eq_true, if_false, if_true]
    case false =>
      cases hc : (resolveDevSource inp inp.tgtDB).cursor with
      | none =>
        exact ⟨_, rfl, rfl, hsel _ (by simp), rfl, rfl,
          ⟨[Stmt.select "app_user", Stmt.select "app_user"], rfl,
           hsel _ (by simp)⟩⟩
      | some b =>
        cases b <;> dsimp only
        · exact ⟨_, rfl, rfl, hsel _ (by simp), rfl, rfl,
            ⟨[Stmt.select "app_user", Stmt.select "app_user"], rfl,
             hsel _ (by simp)⟩⟩
        · exact ⟨_, rfl, rfl, hsel _ (by simp), rfl, rfl,
            ⟨[Stmt.select "app_user", Stmt.select "app_user",
              Stmt.select "app_user"], rfl, hsel _ (by simp)⟩⟩
    case true =>
      cases hc : (resolveDevSource inp inp.tgtDB).cursor with
      | none =>
        exact ⟨_, rfl, rfl, hsel _ (by simp), rfl, rfl, hsel _ (by simp)⟩
      | some b =>
        cases b <;>
          exact ⟨_, rfl, rfl, hsel _ (by simp), rfl, rfl, hsel _ (by simp)⟩

/-! Claim theorems. -/

/-- C10: environment classification of a connection (`conn_info`) is the
deterministic function of the connection described by lines 58-112: a `None`
connection and a closed full-server connection report inactive; an open
full-server connection classifies by database name with "dev" taking
precedence over "prod", else "prod", else "unknown"; a local-file connection
always classifies as environment "local". -/
theorem C10_conn_info_classification :
    (conn_info none).is_active = false ∧
    (∀ c : Conn, c.kind = ConnKind.pg → c.closed = true →
      (conn_info (some c)).is_active = false) ∧
    (∀ c : Conn, c.kind = ConnKind.pg → c.closed = false →
      (conn_info (some c)).is_active = true ∧
      (conn_info (some c)).environment =
        (if strContains (strLower c.dbname) "dev" then "dev"
         else if strContains (strLower c.dbname) "prod" then "prod"
         else "unknown")) ∧
    (∀ c : Conn, c.kind = ConnKind.pg → c.closed = false →
      strContains (strLower c.dbname) "dev" = true →
      (conn_info (some c)).environment = "dev") ∧
    (∀ c : Conn, c.kind = ConnKind.sqlite →
      (conn_info (some c)).environment = "local") := by
  refine ⟨rfl, ?_, ?_, ?_, ?_⟩
  · intro c hk hc
    obtain ⟨k, cl, n⟩ := c
    cases hk
    cases hc
    rfl
  · intro c hk hc
    obtain ⟨k, cl, n⟩ := c
    cases hk
    cases hc
    exact ⟨rfl, rfl⟩
  · intro c hk hc hdev
    obtain ⟨k, cl, n⟩ := c
    cases hk
    cases hc
    simp only [conn_info, envOfDbName, Bool.not_false, if_true]
    simp only at hdev
    simp [hdev]
  · intro c hk
    obtain ⟨k, cl, n⟩ := c
    cases hk
    rfl

/-- Witness for C10 at concrete connections; the second conjunct shows the
"dev" precedence on a name that contains both "dev" and "prod". -/
theorem C10_witness :
    (conn_info (some ⟨ConnKind.pg, true, "getfoco_dev"⟩)).is_active = false ∧
    (conn_info (some ⟨ConnKind.pg, false, "getfoco_DEV_prod"⟩)).environment
      = "dev" ∧
    (conn_info (some ⟨ConnKind.sqlite, true, "db.sqlite3"⟩)).environment
      = "local" :=
  ⟨C10_conn_info_classification.2.1 _ rfl rfl,
   C10_conn_info_classification.2.2.2.1 _ rfl rfl (by decide),
   C10_conn_info_classification.2.2.2.2 _ rfl⟩

/-- Shared helper: when the source-user lookup raises, `run_clone` re-raises
that exception after executing only the one source SELECT, with both stores
untouched. -/
theorem run_clone_lookup_error (inp : CloneInput) (e : CloneErr)
    (h : lookupSrcUser inp.srcDB inp.source_email = Except.error e) :
    (run_clone inp).outcome = Except.error e ∧
    (run_clone inp).srcDB = inp.srcDB ∧
    (run_clone inp).tgt.committed = inp.tgtDB ∧
    (run_clone inp).tgt.pending = inp.tgtDB ∧
    (run_clone inp).srcTrace = [Stmt.select "app_user", Stmt.rollback] ∧
    (run_clone inp).tgtTrace = [Stmt.rollback] := by
  simp only [run_clone, cloneBody, cloneSetup, initSt]
  rw [h]
  exact ⟨rfl, rfl, rfl, rfl, rfl, rfl⟩

/-- C8: the source-user lookup is case-insensitive in the supplied email, and
zero matching rows (resp. more than one) abort the clone with the
user-not-found (resp. ambiguous-user) exception before any statement other
than reads has been executed on either store and with both stores
unchanged. -/
theorem C8_source_user_resolution (inp : CloneInput) :
    (∀ e : String, strLower e = strLower inp.source_email →
      lookupSrcUser inp.srcDB e = lookupSrcUser inp.srcDB inp.source_email) ∧
    (((inp.srcDB.tab "app_user").rows.filter (fun r =>
        valLower (rowGet r "email")
          == Value.str (strLower inp.source_email))).length = 0 →
      (run_clone inp).outcome = Except.error CloneErr.userNotFound ∧
      (run_clone inp).srcDB = inp.srcDB ∧
      (run_clone inp).tgt.committed = inp.tgtDB ∧
      (run_clone inp).tgt.pending = inp.tgtDB ∧
      (run_clone inp).srcTrace.all (fun s => !isWriteStmt s) = true ∧
      (run_clone inp).tgtTrace.all (fun s => !isWriteStmt s) = true) ∧
    (((inp.srcDB.tab "app_user").rows.filter (fun r =>
        valLower (rowGet r "email")
          == Value.str (strLower inp.source_email))).length > 1 →
      (run_clone inp).outcome = Except.error CloneErr.multipleUsers ∧
      (run_clone inp).srcDB = inp.srcDB ∧
      (run_clone inp).tgt.committed = inp.tgtDB ∧
      (run_clone inp).tgt.pending = inp.tgtDB ∧
      (run_clone inp).srcTrace.all (fun s => !isWriteStmt s) = true ∧
      (run_clone inp).tgtTrace.all (fun s => !isWriteStmt s) = true) := by
  refine ⟨?_, ?_, ?_⟩
  · intro e he
    simp only [lookupSrcUser, he]
  · intro hzero
    have hlk : lookupSrcUser inp.srcDB inp.source_email
        = Except.error CloneErr.userNotFound := by
      simp only [lookupSrcUser]
      rw [List.length_eq_zero.mp hzero]
      rfl
    have h := run_clone_lookup_error inp _ hlk
    refine ⟨h.1, h.2.1, h.2.2.1, h.2.2.2.1, ?_, ?_⟩
    · rw [h.2.2.2.2.1]
      rfl
    · rw [h.2.2.2.2.2]
      rfl
  · intro hmany
    have hlk : lookupSrcUser inp.srcDB inp.source_email
        = Except.error CloneErr.multipleUsers := by
      simp only [lookupSrcUser]
      rw [if_pos]
      simpa using hmany
    have h := run_clone_lookup_error inp _ hlk
    refine ⟨h.1, h.2.1, h.2.2.1, h.2.2.2.1, ?_, ?_⟩
    · rw [h.2.2.2.2.1]
      rfl
    · rw [h.2.2.2.2.2]
      rfl

/-- A clone input whose source store has no row under the looked-up email. -/
def inpC8zero : CloneInput :=
  { source_profile := "getfoco_a", target_profile := "getfoco_b",
    source_email := "missing@x.com", target_email := "new@x.com",
    interactive := true, confirmAnswer := true,
    passwordClone := "tpl@x.com", srcConn := pgConn "getfoco_dev",
    tgtConn := pgConn "getfoco_qa", srcDB := srcDBStd,
    tgtDB := ⟨[("app_user", ⟨[]⟩)], schemasStd⟩,
    devDB := devDBStd }

/-- A clone input whose source store has two rows under the looked-up
email. -/
def inpC8two : CloneInput :=
  { source_profile := "getfoco_a", target_profile := "getfoco_b",
    source_email := "a@x.com", target_email := "new@x.com",
    interactive := true, confirmAnswer := true,
    passwordClone := "tpl@x.com", srcConn := pgConn "getfoco_dev",
    tgtConn := pgConn "getfoco_qa",
    srcDB := ⟨[("app_user", ⟨[userRow42, userRow42]⟩)], schemasStd⟩,
    tgtDB := ⟨[("app_user", ⟨[]⟩)], schemasStd⟩,
    devDB := devDBStd }

/-- Witness for C8: a source store with no row under the looked-up email, and
one with two rows under it. -/
theorem C8_witness :
    (run_clone inpC8zero).outcome = Except.error CloneErr.userNotFound ∧
    (run_clone inpC8two).outcome = Except.error CloneErr.multipleUsers :=
  ⟨((C8_source_user_resolution inpC8zero).2.1 (by decide)).1,
   ((C8_source_user_resolution inpC8two).2.2 (by decide)).1⟩

/-- Setup-phase source frame: whatever path the setup takes, the source store
is unchanged and only SELECTs are executed on the source connection. -/
theorem cloneSetup_srcInv (inp : CloneInput) :
    (outSt3 (cloneSetup inp)).srcDB = inp.srcDB ∧
    ∀ s ∈ (outSt3 (cloneSetup inp)).srcTrace, ∃ t, s = Stmt.select t := by
  simp only [cloneSetup, initSt]
  cases hl : lookupSrcUser inp.srcDB inp.source_email with
  | error e => exact ⟨rfl, fun s hs => by simp [outSt3] at hs; exact ⟨_, hs⟩⟩
  | ok u =>
    cases he : userExistsIn inp.tgtDB u <;>
      cases hd : overwriteDecision (conn_info (some inp.srcConn)).environment
        (conn_info (some inp.tgtConn)).environment inp.interactive
        inp.confirmAnswer <;>
      simp only [he, hd, Bool.false_eq_true, if_false, if_true]
    case false.false =>
      cases hc : (resolveDevSource inp inp.tgtDB).cursor with
      | none =>
        cases hp' : fetchTemplatePassword (resolveDevSource inp inp.tgtDB).db
            inp.passwordClone <;>
          exact ⟨rfl, fun s hs => by simp [outSt3] at hs; exact ⟨_, hs⟩⟩
      | some b =>
        cases b <;>
          cases hp' : fetchTemplatePassword (resolveDevSource inp inp.tgtDB).db
            inp.passwordClone <;>
          exact ⟨rfl, fun s hs => by simp [outSt3] at hs; exact ⟨_, hs⟩⟩
    case false.true =>
      cases hc : (resolveDevSource inp inp.tgtDB).cursor with
      | none =>
        cases hp' : fetchTemplatePassword (resolveDevSource inp inp.tgtDB).db
            inp.passwordClone <;>
          exact ⟨rfl, fun s hs => by simp [outSt3] at hs; exact ⟨_, hs⟩⟩
      | some b =>
        cases b <;>
          cases hp' : fetchTemplatePassword (resolveDevSource inp inp.tgtDB).db
            inp.passwordClone <;>
          exact ⟨rfl, fun s hs => by simp [outSt3] at hs; exact ⟨_, hs⟩⟩
    case true.false =>
      cases hc : (resolveDevSource inp inp.tgtDB).cursor with
      | none =>
        cases hp' : fetchTemplatePassword (resolveDevSource inp inp.tgtDB).db
            inp.passwordClone <;>
          exact ⟨rfl, fun s hs => by simp [outSt3] at hs; exact ⟨_, hs⟩⟩
      | some b =>
        cases b <;>
          cases hp' : fetchTemplatePassword (resolveDevSource inp inp.tgtDB).db
            inp.passwordClone <;>
          exact ⟨rfl, fun s hs => by simp [outSt3] at hs; exact ⟨_, hs⟩⟩
    case true.true =>
      cases hc : (resolveDevSource inp inp.tgtDB).cursor with
      | none =>
        cases hp' : fetchTemplatePassword (resolveDevSource inp inp.tgtDB).db
            inp.passwordClone
        case error e =>
          exact ⟨rfl, fun s hs => by simp [outSt3] at hs; exact ⟨_, hs⟩⟩
        case ok tp =>
          cases hs : strEndsWith inp.target_profile "prod" <;>
          simp only [hs, Bool.not_true, Bool.not_false, Bool.and_false,
            Bool.and_true, Bool.true_and, Bool.false_eq_true, if_false,
            if_true] <;>
          exact ⟨rfl, fun s hs' => by simp [outSt3] at hs'; exact ⟨_, hs'⟩⟩
      | some b =>
        cases b <;>
          cases hp' : fetchTemplatePassword (resolveDevSource inp
            inp.tgtDB).db inp.passwordClone
        case false.error e =>
          exact ⟨rfl, fun s hs => by simp [outSt3] at hs; exact ⟨_, hs⟩⟩
        case false.ok tp =>
          cases hs : strEndsWith inp.target_profile "prod" <;>
          simp only [hs, Bool.not_true, Bool.not_false, Bool.and_false,
            Bool.and_true, Bool.true_and, Bool.false_eq_true, if_false,
            if_true] <;>
          exact ⟨rfl, fun s hs' => by simp [outSt3] at hs'; exact ⟨_, hs'⟩⟩
        case true.error e =>
          exact ⟨rfl, fun s hs => by simp [outSt3] at hs; exact ⟨_, hs⟩⟩
        case true.ok tp =>
          cases hs : strEndsWith inp.target_profile "prod" <;>
          simp only [hs, Bool.not_true, Bool.not_false, Bool.and_false,
            Bool.and_true, Bool.true_and, Bool.false_eq_true, if_false,
            if_true] <;>
          exact ⟨rfl, fun s hs' => by simp [outSt3] at hs'; exact ⟨_, hs'⟩⟩

/-- Whole-body source frame. -/
theorem cloneBody_srcInv (inp : CloneInput) :
    (outSt (cloneBody inp)).srcDB = inp.srcDB ∧
    ∀ s ∈ (outSt (cloneBody inp)).srcTrace, ∃ t, s = Stmt.select t := by
  simp only [cloneBody]
  cases hcs : cloneSetup inp with
  | error es =>
    have h := cloneSetup_srcInv inp
    rw [hcs] at h
    exact h
  | ok t =>
    obtain ⟨u, pw, st5⟩ := t
    have h1 := cloneSetup_srcInv inp
    rw [hcs] at h1
    dsimp only [outSt3] at h1
    have h2 := (cloneLoop_inv inp
      ((conn_info (some inp.srcConn)).type == "sqlite")
      ((conn_info (some inp.tgtConn)).type == "sqlite") u pw tableList st5).1
    obtain ⟨hdb, d, htr, hall⟩ := h2
    refine ⟨hdb.trans h1.1, fun s hs => ?_⟩
    rw [htr] at hs
    rcases List.mem_append.mp hs with h | h
    · exact h1.2 s h
    · exact hall s h

/-- C9: no write, update or delete is ever executed through the source
connection — every statement issued on the source store is a SELECT (plus the
rollback call of the exception handler) — and the source store's state is
unchanged by the clone. -/
theorem C9_source_never_mutated (inp : CloneInput) :
    (run_clone inp).srcDB = inp.srcDB ∧
    (run_clone inp).srcTrace.all (fun s => isSelectOrRollback s) = true ∧
    (run_clone inp).srcTrace.all (fun s => !isWriteStmt s) = true := by
  have h := cloneBody_srcInv inp
  have hsel : ∀ s ∈ (outSt (cloneBody inp)).srcTrace,
      isSelectOrRollback s = true ∧ isWriteStmt s = false := by
    intro s hs
    obtain ⟨t, rfl⟩ := h.2 s hs
    exact ⟨rfl, rfl⟩
  simp only [run_clone]
  cases hcb : cloneBody inp with
  | error es =>
    rw [hcb] at h hsel
    dsimp only [outSt] at h hsel
    refine ⟨h.1, ?_, ?_⟩ <;>
      simp only [List.all_eq_true, List.mem_append] <;>
      rintro s (hs | hs)
    · exact (hsel s hs).1
    · simp at hs
      subst hs
      rfl
    · simp [(hsel s hs).2]
    · simp at hs
      subst hs
      rfl
  | ok st =>
    rw [hcb] at h hsel
    dsimp only [outSt] at h hsel
    refine ⟨h.1, ?_, ?_⟩ <;> simp only [List.all_eq_true] <;> intro s hs
    · exact (hsel s hs).1
    · simp [(hsel s hs).2]

/-- Witness for C9 at a concrete input. -/
theorem C9_witness :
    (run_clone inpC1).srcDB = inpC1.srcDB ∧
    (run_clone inpC1).srcTrace.all (fun s => isSelectOrRollback s) = true :=
  ⟨(C9_source_never_mutated inpC1).1, (C9_source_never_mutated inpC1).2.1⟩

/-- When the overwrite condition of lines 260-266 is false, the setup phase
never issues a DELETE on the target connection. -/
theorem cloneSetup_no_delete (inp : CloneInput)
    (hd : overwriteDecision (conn_info (some inp.srcConn)).environment
      (conn_info (some inp.tgtConn)).environment inp.interactive
      inp.confirmAnswer = false) :
    ∀ s ∈ (outSt3 (cloneSetup inp)).tgtTrace, isDeleteStmt s = false := by
  simp only [cloneSetup, initSt]
  cases hl : lookupSrcUser inp.srcDB inp.source_email with
  | error e => exact fun s hs => by simp [outSt3] at hs
  | ok u =>
    cases he : userExistsIn inp.tgtDB u <;>
      simp only [he, hd, Bool.false_eq_true, if_false, if_true]
    case false =>
      cases hc : (resolveDevSource inp inp.tgtDB).cursor with
      | none =>
        cases hp' : fetchTemplatePassword (resolveDevSource inp inp.tgtDB).db
            inp.passwordClone <;>
          exact fun s hs => by simp [outSt3] at hs; subst hs; rfl
      | some b =>
        cases b <;>
          cases hp' : fetchTemplatePassword (resolveDevSource inp inp.tgtDB).db
            inp.passwordClone <;>
          exact fun s hs => by simp [outSt3] at hs; subst hs; rfl
    case true =>
      cases hc : (resolveDevSource inp inp.tgtDB).cursor with
      | none =>
        cases hp' : fetchTemplatePassword (resolveDevSource inp inp.tgtDB).db
            inp.passwordClone <;>
          exact fun s hs => by simp [outSt3] at hs; subst hs; rfl
      | some b =>
        cases b <;>
          cases hp' : fetchTemplatePassword (resolveDevSource inp inp.tgtDB).db
            inp.passwordClone <;>
          exact fun s hs => by simp [outSt3] at hs; subst hs; rfl

/-- When the overwrite condition is false, the whole body never issues a
DELETE on the target connection. -/
theorem cloneBody_no_delete (inp : CloneInput)
    (hd : overwriteDecision (conn_info (some inp.srcConn)).environment
      (conn_info (some inp.tgtConn)).environment inp.interactive
      inp.confirmAnswer = false) :
    ∀ s ∈ (outSt (cloneBody inp)).tgtTrace, isDeleteStmt s = false := by
  simp only [cloneBody]
  cases hcs : cloneSetup inp with
  | error es =>
    have h := cloneSetup_no_delete inp hd
    rw [hcs] at h
    exact h
  | ok t =>
    obtain ⟨u, pw, st5⟩ := t
    have h1 := cloneSetup_no_delete inp hd
    rw [hcs] at h1
    dsimp only [outSt3] at h1
    obtain ⟨d, htr, hnd, _⟩ := (cloneLoop_inv inp
      ((conn_info (some inp.srcConn)).type == "sqlite")
      ((conn_info (some inp.tgtConn)).type == "sqlite") u pw tableList st5).2
    intro s hs
    rw [htr] at hs
    rcases List.mem_append.mp hs with hh | hh
    · exact h1 s hh
    · exact hnd s hh

/-- When the overwrite condition of lines 260-266 is false, `run_clone`
issues no DELETE on the target connection at all. -/
theorem run_clone_no_delete (inp : CloneInput)
    (hd : overwriteDecision (conn_info (some inp.srcConn)).environment
      (conn_info (some inp.tgtConn)).environment inp.interactive
      inp.confirmAnswer = false) :
    (run_clone inp).tgtTrace.all (fun s => !isDeleteStmt s) = true := by
  have hb := cloneBody_no_delete inp hd
  simp only [run_clone]
  cases hcb : cloneBody inp with
  | error es =>
    rw [hcb] at hb
    dsimp only [outSt] at hb
    simp only [List.all_eq_true, List.mem_append]
    rintro s (hs | hs)
    · simp [hb s hs]
    · simp at hs
      subst hs
      rfl
  | ok st =>
    rw [hcb] at hb
    dsimp only [outSt] at hb
    simp only [List.all_eq_true, List.mem_append]
    rintro s (hs | hs)
    · simp [hb s hs]
    · simp at hs
      subst hs
      rfl

/-- C2: cloning into a target whose environment class is the production
class never executes a DELETE against the target user table or any dependent
table, regardless of the interactive flag or any confirmation. -/
theorem C2_prod_target_never_deletes (inp : CloneInput)
    (h : (conn_info (some inp.tgtConn)).environment = "prod") :
    (run_clone inp).tgtTrace.all (fun s => !isDeleteStmt s) = true := by
  refine run_clone_no_delete inp ?_
  rw [h]
  simp [overwriteDecision]

/-- A clone request with a production-class target: the source user exists in
the target store and the request is non-interactive, yet nothing is
deleted. -/
def inpC2 : CloneInput :=
  { source_profile := "getfoco_a", target_profile := "getfoco_b",
    source_email := "a@x.com", target_email := "new@x.com",
    interactive := false, confirmAnswer := true,
    passwordClone := "tpl@x.com", srcConn := pgConn "getfoco_dev",
    tgtConn := pgConn "getfoco_prod",
    srcDB := srcDBStd, tgtDB := ⟨[("app_user", ⟨[tgtRow42]⟩)], schemasStd⟩,
    devDB := devDBStd }

/-- Witness for C2 at a concrete production-class target. -/
theorem C2_witness :
    (run_clone inpC2).tgtTrace.all (fun s => !isDeleteStmt s) = true :=
  C2_prod_target_never_deletes inpC2 (by decide)

/-- The deletion phase issues exactly one DELETE per table, walking the fixed
table list in reverse order with the target user id, followed by one
commit. -/
theorem deletePhase_trace (tgt : ConnState) (uid : Value) :
    (deletePhase tgt uid).2 =
      (tableList.reverse.map (fun t => Stmt.delete t (idFieldOf t) uid))
        ++ [Stmt.commit] := by
  rfl

/-- C1 (amended): with the user id present in the target, the
delete-then-overwrite path is taken iff the overwrite condition of lines
260-266 holds AND the target profile name does not end in "prod" (the
deletion of lines 331-354 is additionally gated on the profile suffix, not on
the environment class); when taken, the deletion is the fixed table list
walked in reverse order with the source id, committed, and preceded only by
reads. -/
theorem overwriteGateSpec (inp : CloneInput) (u pw : Value)
    (hl : lookupSrcUser inp.srcDB inp.source_email = Except.ok u)
    (he : userExistsIn inp.tgtDB u = true)
    (hp : fetchTemplatePassword (resolveDevSource inp inp.tgtDB).db
        inp.passwordClone = Except.ok pw) :
    ((run_clone inp).tgtTrace.any (fun s => isDeleteStmt s) = true ↔
      (overwriteDecision (conn_info (some inp.srcConn)).environment
        (conn_info (some inp.tgtConn)).environment inp.interactive
        inp.confirmAnswer && !(strEndsWith inp.target_profile "prod"))
        = true) ∧
    ((overwriteDecision (conn_info (some inp.srcConn)).environment
        (conn_info (some inp.tgtConn)).environment inp.interactive
        inp.confirmAnswer && !(strEndsWith inp.target_profile "prod"))
        = true →
      ∃ d0 rest, (run_clone inp).tgtTrace
          = d0 ++ ((tableList.reverse.map
              (fun t => Stmt.delete t (idFieldOf t) u)) ++ [Stmt.commit])
            ++ rest ∧
        ∀ s ∈ d0, ∃ t, s = Stmt.select t) := by
  obtain ⟨st5, hok, hsrcdb, hsrcsel, htuid, hcond⟩ :=
    cloneSetup_spec inp u pw hl hp
  rw [he] at hcond
  simp only [Bool.true_and] at hcond
  obtain ⟨d, htr, hnd, -⟩ := (cloneLoop_inv inp
    ((conn_info (some inp.srcConn)).type == "sqlite")
    ((conn_info (some inp.tgtConn)).type == "sqlite") u pw tableList st5).2
  cases hX : (overwriteDecision (conn_info (some inp.srcConn)).environment
      (conn_info (some inp.tgtConn)).environment inp.interactive
      inp.confirmAnswer && !(strEndsWith inp.target_profile "prod"))
  · -- condition false: nothing is deleted
    rw [hX] at hcond
    simp only [Bool.false_eq_true, if_false] at hcond
    have hset : ∀ s ∈ st5.tgtTrace, isDeleteStmt s = false := by
      intro s hs
      obtain ⟨t, rfl⟩ := hcond.2 s hs
      rfl
    have hnodel : ∀ s ∈ (run_clone inp).tgtTrace, isDeleteStmt s = false := by
      simp only [run_clone, cloneBody]
      rw [hok]
      cases hloop : cloneLoop inp
          ((conn_info (some inp.srcConn)).type == "sqlite")
          ((conn_info (some inp.tgtConn)).type == "sqlite") u pw tableList
          st5 with
      | error es =>
        obtain ⟨e, stE⟩ := es
        rw [hloop] at htr
        dsimp only [outSt] at htr
        intro s hs
        simp only [hloop] at hs
        rw [htr] at hs
        rcases List.mem_append.mp hs with hh | hh
        · rcases List.mem_append.mp hh with h1 | h1
          · exact hset s h1
          · exact hnd s h1
        · simp at hh
          subst hh
          rfl
      | ok stF =>
        rw [hloop] at htr
        dsimp only [outSt] at htr
        intro s hs
        simp only [hloop] at hs
        rw [htr] at hs
        rcases List.mem_append.mp hs with hh | hh
        · rcases List.mem_append.mp hh with h1 | h1
          · exact hset s h1
          · exact hnd s h1
        · simp at hh
          subst hh
          rfl
    constructor
    · constructor
      · intro hany
        obtain ⟨s, hs, hdel⟩ := List.any_eq_true.mp hany
        rw [hnodel s hs] at hdel
        exact absurd hdel (by simp)
      · intro hfalse
        exact absurd hfalse (by simp)
    · intro hfalse
      exact absurd hfalse (by simp)
  · -- condition true: the deletion phase ran
    rw [hX] at hcond
    simp only [if_true] at hcond
    obtain ⟨htgt5, d0, htr5, hd0⟩ := hcond
    have hshape : ∃ rest, (run_clone inp).tgtTrace
        = d0 ++ ((tableList.reverse.map
            (fun t => Stmt.delete t (idFieldOf t) u)) ++ [Stmt.commit])
          ++ rest := by
      simp only [run_clone, cloneBody]
      rw [hok]
      cases hloop : cloneLoop inp
          ((conn_info (some inp.srcConn)).type == "sqlite")
          ((conn_info (some inp.tgtConn)).type == "sqlite") u pw tableList
          st5 with
      | error es =>
        obtain ⟨e, stE⟩ := es
        rw [hloop] at htr
        dsimp only [outSt] at htr
        refine ⟨d ++ [Stmt.rollback], ?_⟩
        simp only [hloop]
        rw [htr, htr5, deletePhase_trace]
        simp [List.append_assoc]
      | ok stF =>
        rw [hloop] at htr
        dsimp only [outSt] at htr
        refine ⟨d ++ [Stmt.commit], ?_⟩
        simp only [hloop]
        rw [htr, htr5, deletePhase_trace]
        simp [List.append_assoc]
    obtain ⟨rest, hshape⟩ := hshape
    have hmem : Stmt.delete "app_user" "id" u ∈ (run_clone inp).tgtTrace := by
      rw [hshape]
      refine List.mem_append.mpr (Or.inl (List.mem_append.mpr (Or.inr ?_)))
      refine List.mem_append.mpr (Or.inl ?_)
      have hm : "app_user" ∈ tableList.reverse := by simp [tableList]
      have hmap := List.mem_map_of_mem
        (fun t => Stmt.delete t (idFieldOf t) u) hm
      simpa [idFieldOf] using hmap
    refine ⟨?_, fun _ => ⟨d0, rest, hshape, hd0⟩⟩
    simp only [iff_true]
    exact List.any_eq_true.mpr ⟨_, hmem, rfl⟩

/-- C1: the claim as frozen is corrected by `C1_counterexample`; this is the
amended statement — with the user id present in the target, the
delete-then-overwrite path is taken iff the overwrite condition of lines
260-266 holds AND the target profile name does not end in "prod"; when taken,
the deletion walks the fixed table list in reverse order with the source id
and is committed, preceded only by reads (hence before any insertion). -/
theorem C1_overwrite_gate (inp : CloneInput) (u pw : Value)
    (hl : lookupSrcUser inp.srcDB inp.source_email = Except.ok u)
    (he : userExistsIn inp.tgtDB u = true)
    (hp : fetchTemplatePassword (resolveDevSource inp inp.tgtDB).db
        inp.passwordClone = Except.ok pw) :
    ((run_clone inp).tgtTrace.any (fun s => isDeleteStmt s) = true ↔
      (overwriteDecision (conn_info (some inp.srcConn)).environment
        (conn_info (some inp.tgtConn)).environment inp.interactive
        inp.confirmAnswer && !(strEndsWith inp.target_profile "prod"))
        = true) ∧
    ((overwriteDecision (conn_info (some inp.srcConn)).environment
        (conn_info (some inp.tgtConn)).environment inp.interactive
        inp.confirmAnswer && !(strEndsWith inp.target_profile "prod"))
        = true →
      ∃ d0 rest, (run_clone inp).tgtTrace
          = d0 ++ ((tableList.reverse.map
              (fun t => Stmt.delete t (idFieldOf t) u)) ++ [Stmt.commit])
            ++ rest ∧
        ∀ s ∈ d0, ∃ t, s = Stmt.select t) :=
  overwriteGateSpec inp u pw hl he hp

/-- C1 counterexample: at `inpC1` the source user resolves to id 42, id 42
exists in the target, and the overwrite condition of the claim holds
(environment classes "dev" vs "unknown", non-interactive), yet no DELETE is
ever executed on the target, because the deletion is gated on the target
profile name ("getfoco_prod") rather than on the environment class. -/
theorem C1_counterexample :
    lookupSrcUser inpC1.srcDB inpC1.source_email
      = Except.ok (Value.int 42) ∧
    userExistsIn inpC1.tgtDB (Value.int 42) = true ∧
    overwriteDecision (conn_info (some inpC1.srcConn)).environment
      (conn_info (some inpC1.tgtConn)).environment inpC1.interactive
      inpC1.confirmAnswer = true ∧
    (conn_info (some inpC1.tgtConn)).environment ≠ "prod" ∧
    (run_clone inpC1).tgtTrace.any (fun s => isDeleteStmt s) = false := by
  decide

/-- Witness for C1 at a concrete overwrite (`inpC3`: dev-to-a clone of an
existing user, non-interactive). -/
theorem C1_witness :
    (run_clone inpC3).tgtTrace.any (fun s => isDeleteStmt s) = true :=
  ((C1_overwrite_gate inpC3 (Value.int 42) (Value.str "tplhash")
    (by decide) (by decide) (by decide)).1).mpr (by decide)

/-- The insert phase preserves a known target user id. -/
theorem insertPhase_keep_tuid (tgtLocal : Bool) (table : String)
    (fl : List String) (rows : List (List Value)) (st : St) (v : Value)
    (hv : st.targetUserId = some v) :
    (outSt (insertPhase tgtLocal table fl rows st)).targetUserId = some v
    := by
  simp only [insertPhase, hv]
  cases hid : (idFieldOf table == "id") <;>
    cases hl : tgtLocal <;>
    simp [hid, hl, outSt, hv]

/-- One table step preserves a known target user id. -/
theorem processTable_keep_tuid (inp : CloneInput) (srcLocal tgtLocal : Bool)
    (u pw : Value) (st : St) (table : String) (v : Value)
    (hv : st.targetUserId = some v) :
    (outSt (processTable inp srcLocal tgtLocal u pw st table)).targetUserId
      = some v := by
  simp only [processTable]
  split
  · exact hv
  · split
    · split
      · exact hv
      · split
        · exact hv
        · exact insertPhase_keep_tuid tgtLocal table _ _ _ v hv
    · split
      · exact hv
      · split
        · split
          · exact hv
          · split
            · exact hv
            · split
              · rename_i es heq
                have h := (resolveAddr_inv_err heq).2.2
                exact h.trans hv
              · rename_i aE stB heq
                have h := (resolveAddr_inv_ok heq).2.2
                split
                · exact h.trans hv
                · split
                  · rename_i es2 heq2
                    have h2 := (resolveAddr_inv_err heq2).2.2
                    exact h2.trans (h.trans hv)
                  · rename_i aM stC heq2
                    have h2 := (resolveAddr_inv_ok heq2).2.2
                    exact insertPhase_keep_tuid tgtLocal table _ _ stC v
                      (h2.trans (h.trans hv))
        · exact insertPhase_keep_tuid tgtLocal table _ _ _ v hv

/-- The per-table loop preserves a known target user id. -/
theorem cloneLoop_keep_tuid (inp : CloneInput) (srcLocal tgtLocal : Bool)
    (u pw : Value) (ts : List String) (st stF : St) (v : Value)
    (hv : st.targetUserId = some v)
    (h : cloneLoop inp srcLocal tgtLocal u pw ts st = Except.ok stF) :
    stF.targetUserId = some v := by
  induction ts generalizing st with
  | nil =>
    simp only [cloneLoop] at h
    injection h with h
    subst h
    exact hv
  | cons t rest ih =>
    simp only [cloneLoop] at h
    cases hpt : processTable inp srcLocal tgtLocal u pw st t with
    | error es =>
      rw [hpt] at h
      exact absurd h (by simp)
    | ok st1 =>
      rw [hpt] at h
      have hk := processTable_keep_tuid inp srcLocal tgtLocal u pw st t v hv
      rw [hpt] at hk
      dsimp only [outSt] at hk
      exact ih st1 hk h

/-- `not interactive` makes the third conjunct of the overwrite condition
true, so the condition collapses to "environments differ and the target is
not prod". -/
theorem overwriteDecision_noninteractive (srcEnv targetEnv : String)
    (c : Bool) :
    overwriteDecision srcEnv targetEnv false c
      = ((srcEnv != targetEnv) && (targetEnv != "prod")) := by
  simp [overwriteDecision]

/-- C3: the claim as frozen is corrected by `C3_counterexample`; this is the
amended statement — with interactive mode off and the user id existing in
the target, the clone defaults to the OVERWRITE path (deletion plus target
identifier = source identifier) whenever the environment classes differ and
the target class is not "prod" (and the target profile is not
prod-suffixed); only when the environment classes coincide or the target
class is "prod" is the non-destructive new-identity path taken (no deletion
at all). -/
theorem C3_noninteractive_default (inp : CloneInput) (u pw : Value)
    (hint : inp.interactive = false)
    (hl : lookupSrcUser inp.srcDB inp.source_email = Except.ok u)
    (he : userExistsIn inp.tgtDB u = true)
    (hp : fetchTemplatePassword (resolveDevSource inp inp.tgtDB).db
        inp.passwordClone = Except.ok pw) :
    (((((conn_info (some inp.srcConn)).environment
          != (conn_info (some inp.tgtConn)).environment)
        && ((conn_info (some inp.tgtConn)).environment != "prod"))
        && !(strEndsWith inp.target_profile "prod")) = true →
      (run_clone inp).tgtTrace.any (fun s => isDeleteStmt s) = true ∧
      ∀ uid, (run_clone inp).outcome = Except.ok uid → uid = some u) ∧
    ((((conn_info (some inp.srcConn)).environment
          != (conn_info (some inp.tgtConn)).environment)
        && ((conn_info (some inp.tgtConn)).environment != "prod")) = false →
      (run_clone inp).tgtTrace.all (fun s => !isDeleteStmt s) = true) := by
  have hgate := overwriteGateSpec inp u pw hl he hp
  have hdec : overwriteDecision (conn_info (some inp.srcConn)).environment
      (conn_info (some inp.tgtConn)).environment inp.interactive
      inp.confirmAnswer
      = (((conn_info (some inp.srcConn)).environment
          != (conn_info (some inp.tgtConn)).environment)
        && ((conn_info (some inp.tgtConn)).environment != "prod")) := by
    rw [hint]
    exact overwriteDecision_noninteractive _ _ _
  constructor
  · intro hcond
    refine ⟨hgate.1.mpr (by rw [hdec]; exact hcond), ?_⟩
    -- on the overwrite path the final reported id is the source id
    obtain ⟨st5, hok, -, -, htuid, -⟩ := cloneSetup_spec inp u pw hl hp
    rw [he] at htuid
    have hdec' : overwriteDecision (conn_info (some inp.srcConn)).environment
        (conn_info (some inp.tgtConn)).environment inp.interactive
        inp.confirmAnswer = true := by
      rw [hdec]
      exact (Bool.and_eq_true_iff.mp hcond).1
    rw [hdec'] at htuid
    simp only [if_true] at htuid
    intro uid houtcome
    simp only [run_clone, cloneBody] at houtcome
    rw [hok] at houtcome
    cases hloop : cloneLoop inp
        ((conn_info (some inp.srcConn)).type == "sqlite")
        ((conn_info (some inp.tgtConn)).type == "sqlite") u pw tableList
        st5 with
    | error es =>
      obtain ⟨e, stE⟩ := es
      simp only [hloop] at houtcome
      exact absurd houtcome (by simp)
    | ok stF =>
      simp only [hloop] at houtcome
      have := cloneLoop_keep_tuid inp
        ((conn_info (some inp.srcConn)).type == "sqlite")
        ((conn_info (some inp.tgtConn)).type == "sqlite") u pw tableList
        st5 stF u htuid hloop
      injection houtcome with houtcome
      rw [← houtcome, this]
  · intro hcond
    refine run_clone_no_delete inp ?_
    rw [hdec]
    exact hcond

/-- C3 counterexample: at `inpC3` (non-interactive, user 42 already in the
target under a different email, environments "prod" to "dev") the code takes
the destructive overwrite default: rows are deleted and the reported target
identifier equals the source identifier 42, instead of the claimed
non-destructive new identity. -/
theorem C3_counterexample :
    inpC3.interactive = false ∧
    userExistsIn inpC3.tgtDB (Value.int 42) = true ∧
    (run_clone inpC3).outcome = Except.ok (some (Value.int 42)) ∧
    (run_clone inpC3).tgtTrace.any (fun s => isDeleteStmt s) = true := by
  decide

/-- Witness for C3 (amended) at `inpC3` (overwrite branch) and at a
same-environment input (new-identity branch, no deletion). -/
theorem C3_witness :
    ((run_clone inpC3).tgtTrace.any (fun s => isDeleteStmt s) = true ∧
      ∀ uid, (run_clone inpC3).outcome = Except.ok uid →
        uid = some (Value.int 42)) :=
  (C3_noninteractive_default inpC3 (Value.int 42) (Value.str "tplhash")
    (by decide) (by decide) (by decide) (by decide)).1 (by decide)

/-- C4: the claim as frozen is corrected by `C4_counterexample`; this is the
amended statement — if the per-table loop raises, both connections are
rolled back and the same exception propagates, and target work is committed
only to the extent a commit was issued inside the loop (the mid-loop commit
of an address insert also commits pending main-phase inserts: without any
such commit the committed target state is exactly the post-setup one); if
the loop succeeds, the target connection receives exactly one further
commit, after all tables. -/
theorem C4_transaction_boundaries (inp : CloneInput) (u pw : Value)
    (st5 : St) (hsetup : cloneSetup inp = Except.ok (u, pw, st5)) :
    (∀ e stE, cloneLoop inp ((conn_info (some inp.srcConn)).type == "sqlite")
        ((conn_info (some inp.tgtConn)).type == "sqlite") u pw tableList st5
        = Except.error (e, stE) →
      (run_clone inp).outcome = Except.error e ∧
      (run_clone inp).srcTrace = stE.srcTrace ++ [Stmt.rollback] ∧
      (run_clone inp).tgtTrace = stE.tgtTrace ++ [Stmt.rollback] ∧
      (run_clone inp).tgt = stE.tgt.rollback ∧
      (run_clone inp).tgt.pending = (run_clone inp).tgt.committed ∧
      ∃ d, stE.tgtTrace = st5.tgtTrace ++ d ∧
        (Stmt.commit ∉ d → stE.tgt.committed = st5.tgt.committed)) ∧
    (∀ stF, cloneLoop inp ((conn_info (some inp.srcConn)).type == "sqlite")
        ((conn_info (some inp.tgtConn)).type == "sqlite") u pw tableList st5
        = Except.ok stF →
      (run_clone inp).outcome = Except.ok stF.targetUserId ∧
      (run_clone inp).tgtTrace = stF.tgtTrace ++ [Stmt.commit] ∧
      (run_clone inp).tgt = stF.tgt.commit) := by
  constructor
  · intro e stE hloop
    obtain ⟨d, htr, -, hcommit⟩ := (cloneLoop_inv inp
      ((conn_info (some inp.srcConn)).type == "sqlite")
      ((conn_info (some inp.tgtConn)).type == "sqlite") u pw tableList
      st5).2
    rw [hloop] at htr hcommit
    dsimp only [outSt] at htr hcommit
    simp only [run_clone, cloneBody, hsetup, hloop]
    exact ⟨trivial, trivial, trivial, trivial, rfl, d, htr, hcommit⟩
  · intro stF hloop
    simp only [run_clone, cloneBody, hsetup, hloop]
    exact ⟨trivial, trivial, trivial⟩

/-- C4 counterexample: at `inpC4` the mailing-address fetch raises after the
eligibility-address insert was committed mid-loop (line 538); that commit
also committed the main-phase `app_user` insert, so after the rollback the
target's committed store contains the cloned user row even though the clone
failed. -/
theorem C4_counterexample :
    (run_clone inpC4).outcome = Except.error CloneErr.sourceAddressMissing ∧
    (inpC4.tgtDB.tab "app_user").rows.length = 0 ∧
    ((run_clone inpC4).tgt.committed.tab "app_user").rows.length = 1 := by
  decide

/-- A clone request that succeeds end to end (user 42 absent from the
target). -/
def inpOk : CloneInput :=
  { source_profile := "getfoco_a", target_profile := "getfoco_b",
    source_email := "a@x.com", target_email := "new@x.com",
    interactive := true, confirmAnswer := true, passwordClone := "tpl@x.com",
    srcConn := pgConn "getfoco_dev", tgtConn := pgConn "getfoco_qa",
    srcDB := srcDBStd, tgtDB := ⟨[("app_user", ⟨[]⟩)], schemasStd⟩,
    devDB := devDBStd }

/-- Witness for C4 on the success path of `inpOk`. -/
theorem C4_witness :
    (run_clone inpOk).outcome = Except.ok ((outSt (cloneLoop inpOk
        ((conn_info (some inpOk.srcConn)).type == "sqlite")
        ((conn_info (some inpOk.tgtConn)).type == "sqlite") (Value.int 42)
        (Value.str "tplhash") tableList
        (outSt3 (cloneSetup inpOk)))).targetUserId) ∧
    (run_clone inpOk).tgtTrace = (outSt (cloneLoop inpOk
        ((conn_info (some inpOk.srcConn)).type == "sqlite")
        ((conn_info (some inpOk.tgtConn)).type == "sqlite") (Value.int 42)
        (Value.str "tplhash") tableList
        (outSt3 (cloneSetup inpOk)))).tgtTrace ++ [Stmt.commit] := by
  have h := (C4_transaction_boundaries inpOk (Value.int 42)
    (Value.str "tplhash") (outSt3 (cloneSetup inpOk)) (by decide)).2
    (outSt (cloneLoop inpOk
      ((conn_info (some inpOk.srcConn)).type == "sqlite")
      ((conn_info (some inpOk.tgtConn)).type == "sqlite") (Value.int 42)
      (Value.str "tplhash") tableList (outSt3 (cloneSetup inpOk))))
    (by decide)
  exact ⟨h.1, h.2.1⟩

/-- C5: for a source address whose content hash already has a matching row in
the target address table, resolution returns that existing row's identifier
and performs zero inserts (the target connection state is unchanged, so
repeated calls with the same hash are idempotent); for a hash with no
matching target row, it inserts the writable columns of the source address
row verbatim, returns the newly assigned identifier, and commits that insert
immediately (committed state = pending state right after the insert),
independent of the clone's final commit. -/
theorem C5_address_resolution (srcLocal : Bool) (st : St)
    (srcAddrId : Value) (srcRow : Row)
    (hsrc : (st.srcDB.tab "app_addressrd").rows.find?
        (fun r => rowGet r "id" == srcAddrId) = some srcRow) :
    (∀ tgtRow, (st.tgt.pending.tab "app_addressrd").rows.find?
        (fun r => rowGet r "address_sha1"
          == rowGet srcRow "address_sha1") = some tgtRow →
      resolveAddr srcLocal st srcAddrId
        = Except.ok (rowGet tgtRow "id",
            { st with
              srcTrace := st.srcTrace ++ [Stmt.select "app_addressrd"],
              tgtTrace := st.tgtTrace ++ [Stmt.select "app_addressrd"] })) ∧
    ((st.tgt.pending.tab "app_addressrd").rows.find?
        (fun r => rowGet r "address_sha1"
          == rowGet srcRow "address_sha1") = none →
      ∃ st', resolveAddr srcLocal st srcAddrId
          = Except.ok (Value.int
              (freshId (st.tgt.pending.tab "app_addressrd")), st') ∧
        st'.tgt.pending = st.tgt.pending.setTab "app_addressrd"
          ⟨(st.tgt.pending.tab "app_addressrd").rows ++
            [mkRow ((st.srcDB.schema "app_addressrd").filter
                (fun f => !(f == "id")))
              (projectRow ((st.srcDB.schema "app_addressrd").filter
                (fun f => !(f == "id"))) srcRow)
              ++ [("id", Value.int
                (freshId (st.tgt.pending.tab "app_addressrd")))]]⟩ ∧
        st'.tgt.committed = st'.tgt.pending ∧
        st'.tgtTrace = st.tgtTrace ++ [Stmt.select "app_addressrd",
          Stmt.insert "app_addressrd" 1, Stmt.commit]) := by
  constructor
  · intro tgtRow hfound
    simp only [resolveAddr, hsrc, hfound]
  · intro hnone
    refine ⟨outStP (resolveAddr srcLocal st srcAddrId), ?_, ?_, ?_, ?_⟩ <;>
      simp only [resolveAddr, hsrc, hnone, outStP, ConnState.commit] <;>
      try simp

/-- The source address row with id 5 and hash H1 used by the witnesses. -/
def rdRow5 : Row :=
  [("id", Value.int 5), ("address_sha1", Value.str "H1"),
   ("address", Value.str "123 Main St")]

/-- A target address row that already carries hash H1 under id 99. -/
def rdRow99 : Row :=
  [("id", Value.int 99), ("address_sha1", Value.str "H1"),
   ("address", Value.str "123 Main Street")]

/-- Interpreter state whose target already holds hash H1 (under id 99). -/
def stC5found : St :=
  { srcDB := ⟨[("app_addressrd", ⟨[rdRow5]⟩)], schemasStd⟩,
    tgt := ⟨⟨[("app_addressrd", ⟨[rdRow99]⟩)], schemasStd⟩,
           ⟨[("app_addressrd", ⟨[rdRow99]⟩)], schemasStd⟩⟩,
    targetUserId := some (Value.int 42), srcTrace := [], tgtTrace := [] }

/-- Interpreter state whose target has no row with hash H1. -/
def stC5new : St :=
  { srcDB := ⟨[("app_addressrd", ⟨[rdRow5]⟩)], schemasStd⟩,
    tgt := ⟨⟨[("app_addressrd", ⟨[]⟩)], schemasStd⟩,
           ⟨[("app_addressrd", ⟨[]⟩)], schemasStd⟩⟩,
    targetUserId := some (Value.int 42), srcTrace := [], tgtTrace := [] }

/-- Witness for C5: the found case returns id 99 with the target unchanged;
the absent case inserts and commits immediately. -/
theorem C5_witness :
    resolveAddr false stC5found (Value.int 5)
      = Except.ok (rowGet rdRow99 "id",
          { stC5found with
            srcTrace := stC5found.srcTrace ++ [Stmt.select "app_addressrd"],
            tgtTrace := stC5found.tgtTrace
              ++ [Stmt.select "app_addressrd"] }) ∧
    ∃ st', resolveAddr false stC5new (Value.int 5)
        = Except.ok (Value.int
            (freshId (stC5new.tgt.pending.tab "app_addressrd")), st') ∧
      st'.tgt.committed = st'.tgt.pending := by
  constructor
  · exact (C5_address_resolution false stC5found (Value.int 5) rdRow5
      (by decide)).1 rdRow99 (by decide)
  · obtain ⟨st', h1, h2, h3, h4⟩ :=
      (C5_address_resolution false stC5new (Value.int 5) rdRow5
        (by decide)).2 (by decide)
    exact ⟨st', h1, h3⟩

/-- A successful lookup returns the id of a source row matching the email
case-insensitively. -/
theorem lookupSrcUser_mem (db : DB) (e : String) (u : Value)
    (h : lookupSrcUser db e = Except.ok u) :
    ∃ r, r ∈ (db.tab "app_user").rows ∧ rowGet r "id" = u := by
  simp only [lookupSrcUser] at h
  cases hf : ((db.tab "app_user").rows.filter
      (fun r => valLower (rowGet r "email") == Value.str (strLower e))) with
  | nil =>
    rw [hf] at h
    simp at h
  | cons r0 rest =>
    rw [hf] at h
    simp only [List.map_cons] at h
    by_cases hlen : (rowGet r0 "id" :: rest.map (fun r => rowGet r "id")).length > 1
    · rw [if_pos hlen] at h
      exact absurd h (by simp)
    · rw [if_neg hlen] at h
      injection h with h
      have hmem : r0 ∈ (db.tab "app_user").rows.filter
          (fun r => valLower (rowGet r "email")
            == Value.str (strLower e)) := by
        rw [hf]
        exact List.mem_cons_self r0 rest
      exact ⟨r0, (List.mem_filter.mp hmem).1, h⟩

/-- Inversion of a successful setup: it resolved the source user and the
template password exactly as lines 210-226 and 283-305 describe. -/
theorem cloneSetup_ok_inv (inp : CloneInput) (u pw : Value) (st5 : St)
    (h : cloneSetup inp = Except.ok (u, pw, st5)) :
    lookupSrcUser inp.srcDB inp.source_email = Except.ok u ∧
    fetchTemplatePassword (resolveDevSource inp inp.tgtDB).db
      inp.passwordClone = Except.ok pw := by
  simp only [cloneSetup, initSt] at h
  cases hl : lookupSrcUser inp.srcDB inp.source_email with
  | error e =>
    simp only [hl] at h
    exact absurd h (by simp)
  | ok u0 =>
    simp only [hl] at h
    cases he : userExistsIn inp.tgtDB u0 <;> rw [he] at h <;>
      simp only [Bool.false_eq_true, if_false, if_true] at h
    case false =>
      cases hp' : fetchTemplatePassword (resolveDevSource inp inp.tgtDB).db
          inp.passwordClone <;> rw [hp'] at h
      case error e => exact absurd h (by simp)
      case ok tp =>
        rw [Except.ok.injEq, Prod.mk.injEq, Prod.mk.injEq] at h
        obtain ⟨h1, h2, -⟩ := h
        subst h1
        subst h2
        exact ⟨rfl, rfl⟩
    case true =>
      cases hd : overwriteDecision (conn_info (some inp.srcConn)).environment
          (conn_info (some inp.tgtConn)).environment inp.interactive
          inp.confirmAnswer <;> rw [hd] at h <;>
        simp only [Bool.false_eq_true, if_false, if_true] at h <;>
        cases hp' : fetchTemplatePassword (resolveDevSource inp inp.tgtDB).db
          inp.passwordClone <;> rw [hp'] at h
      case false.error e => exact absurd h (by simp)
      case false.ok tp =>
        rw [Except.ok.injEq, Prod.mk.injEq, Prod.mk.injEq] at h
        obtain ⟨h1, h2, -⟩ := h
        subst h1
        subst h2
        exact ⟨rfl, rfl⟩
      case true.error e => exact absurd h (by simp)
      case true.ok tp =>
        rw [Except.ok.injEq, Prod.mk.injEq, Prod.mk.injEq] at h
        obtain ⟨h1, h2, -⟩ := h
        subst h1
        subst h2
        exact ⟨rfl, rfl⟩

/-- The transformed user row carries the target email, the template
password, the placeholder phone number and the forced archived flag, at
whatever position its field list dictates. -/
theorem transformUserRow_spec (te : String) (pw : Value) (fl : List String)
    (vals row1 : List Value) (suf : Row)
    (h : transformUserRow te pw fl vals = Except.ok row1)
    (hlen : vals.length = fl.length) :
    rowGet (mkRow fl row1 ++ suf) "email" = Value.str te ∧
    rowGet (mkRow fl row1 ++ suf) "password" = pw ∧
    rowGet (mkRow fl row1 ++ suf) "phone_number"
      = Value.str "+13035551234" ∧
    rowGet (mkRow fl row1 ++ suf) "is_archived" = Value.bool true := by
  simp only [transformUserRow] at h
  cases hE : fieldIndex fl "email" with
  | error e => rw [hE] at h; exact absurd h (by simp)
  | ok iE =>
  rw [hE] at h
  cases hP : fieldIndex fl "password" with
  | error e => rw [hP] at h; exact absurd h (by simp)
  | ok iP =>
  rw [hP] at h
  cases hN : fieldIndex fl "phone_number" with
  | error e => rw [hN] at h; exact absurd h (by simp)
  | ok iN =>
  rw [hN] at h
  cases hA : fieldIndex fl "is_archived" with
  | error e => rw [hA] at h; exact absurd h (by simp)
  | ok iA =>
  rw [hA] at h
  injection h with h
  subst h
  have lE := fieldIndex_lt fl "email" iE hE
  have lP := fieldIndex_lt fl "password" iP hP
  have lN := fieldIndex_lt fl "phone_number" iN hN
  have lA := fieldIndex_lt fl "is_archived" iA hA
  have nEP := fieldIndex_ne fl "email" "password" iE iP hE hP (by decide)
  have nEN := fieldIndex_ne fl "email" "phone_number" iE iN hE hN (by decide)
  have nEA := fieldIndex_ne fl "email" "is_archived" iE iA hE hA (by decide)
  have nPN := fieldIndex_ne fl "password" "phone_number" iP iN hP hN
    (by decide)
  have nPA := fieldIndex_ne fl "password" "is_archived" iP iA hP hA
    (by decide)
  have nNA := fieldIndex_ne fl "phone_number" "is_archived" iN iA hN hA
    (by decide)
  have hlen4 : ((((vals.set iE (Value.str te)).set iP pw).set iN
      (Value.str "+13035551234")).set iA (Value.bool true)).length
      = fl.length := by
    simp [hlen]
  refine ⟨?_, ?_, ?_, ?_⟩
  · rw [rowGet_zip_append fl _ "email" iE suf hE hlen4]
    rw [getD_set_ne _ iA iE _ _ (Ne.symm nEA),
      getD_set_ne _ iN iE _ _ (Ne.symm nEN),
      getD_set_ne _ iP iE _ _ (Ne.symm nEP)]
    exact getD_set_self vals iE _ _ (hlen ▸ lE)
  · rw [rowGet_zip_append fl _ "password" iP suf hP hlen4]
    rw [getD_set_ne _ iA iP _ _ (Ne.symm nPA),
      getD_set_ne _ iN iP _ _ (Ne.symm nPN)]
    exact getD_set_self _ iP _ _ (by simp [hlen ▸ lP])
  · rw [rowGet_zip_append fl _ "phone_number" iN suf hN hlen4]
    rw [getD_set_ne _ iA iN _ _ (Ne.symm nNA)]
    exact getD_set_self _ iN _ _ (by simp [hlen ▸ lN])
  · rw [rowGet_zip_append fl _ "is_archived" iA suf hA hlen4]
    exact getD_set_self _ iA _ _ (by simp [hlen ▸ lA])

/-- The insert phase appends exactly one user row built from the field list
and the transformed values (plus the id column). -/
theorem insertPhase_user_row (tgtLocal : Bool) (fl : List String)
    (row1 : List Value) (st st' : St)
    (h : insertPhase tgtLocal "app_user" fl [row1] st = Except.ok st') :
    ∃ w, (st'.tgt.pending.tab "app_user").rows
      = (st.tgt.pending.tab "app_user").rows
        ++ [mkRow fl row1 ++ [("id", w)]] := by
  simp only [insertPhase, idFieldOf] at h
  cases ht : st.targetUserId with
  | some v =>
    rw [ht] at h
    simp only [beq_self_eq_true, Bool.true_and] at h
    simp at h
    rw [← h]
    exact ⟨v, by simp [tab_setTab_self, optVal, List.map]⟩
  | none =>
    rw [ht] at h
    simp only [beq_self_eq_true, Bool.true_and] at h
    cases htl : tgtLocal <;> rw [htl] at h <;> simp at h
    rw [← h]
    refine ⟨Value.int (freshId (st.tgt.pending.tab "app_user")), ?_⟩
    simp [tab_setTab_self, insertRowsFresh]

/-- Processing the user table (with at least one source row) appends to the
target's pending user table a row whose email, password, phone number and
archived flag have been rewritten per lines 412-428. -/
theorem processTable_user_row (inp : CloneInput) (srcLocal tgtLocal : Bool)
    (u pw : Value) (st st' : St)
    (h : processTable inp srcLocal tgtLocal u pw st "app_user"
      = Except.ok st')
    (hne : (st.srcDB.tab "app_user").rows.filter
      (fun r => rowGet r "id" == u) ≠ []) :
    ∃ r, r ∈ (st'.tgt.pending.tab "app_user").rows ∧
      rowGet r "email" = Value.str inp.target_email ∧
      rowGet r "password" = pw ∧
      rowGet r "phone_number" = Value.str "+13035551234" ∧
      rowGet r "is_archived" = Value.bool true := by
  simp only [processTable, idFieldOf, beq_self_eq_true, if_true] at h
  cases hfil : (st.srcDB.tab "app_user").rows.filter
      (fun r => rowGet r "id" == u) with
  | nil => exact absurd hfil hne
  | cons r0 rs =>
    rw [hfil] at h
    simp only [List.map_cons, List.length_cons] at h
    cases hrs : rs with
    | cons r1 rs' =>
      rw [hrs] at h
      simp at h
    | nil =>
      rw [hrs] at h
      simp only [List.map_nil, List.length_nil] at h
      norm_num at h
      cases htr : transformUserRow inp.target_email pw
          ((st.srcDB.schema "app_user").filter (fun f => !(f == "id")))
          (projectRow ((st.srcDB.schema "app_user").filter
            (fun f => !(f == "id"))) r0) with
      | error e =>
        rw [htr] at h
        exact absurd h (by simp)
      | ok row1 =>
        rw [htr] at h
        obtain ⟨w, hrows⟩ := insertPhase_user_row tgtLocal _ row1 _ st' h
        have hflds := transformUserRow_spec inp.target_email pw
          ((st.srcDB.schema "app_user").filter (fun f => !(f == "id")))
          (projectRow ((st.srcDB.schema "app_user").filter
            (fun f => !(f == "id"))) r0) row1 [("id", w)] htr
          (by simp [projectRow])
        refine ⟨mkRow ((st.srcDB.schema "app_user").filter
            (fun f => !(f == "id"))) row1 ++ [("id", w)], ?_,
          hflds.1, hflds.2.1, hflds.2.2.1, hflds.2.2.2⟩
        rw [hrows]
        simp

/-- The insert phase into a table other than the user table leaves the
pending user table unchanged. -/
theorem insertPhase_app_user_frame (tgtLocal : Bool) (table : String)
    (fl : List String) (rows : List (List Value)) (st st' : St)
    (h : insertPhase tgtLocal table fl rows st = Except.ok st')
    (hne : table ≠ "app_user") :
    st'.tgt.pending.tab "app_user" = st.tgt.pending.tab "app_user" := by
  simp only [insertPhase] at h
  cases hid : (idFieldOf table == "id") <;> rw [hid] at h <;>
    cases htl : tgtLocal <;> rw [htl] at h <;>
    cases ht : (st.targetUserId == none) <;> rw [ht] at h <;>
    simp at h <;>
    rw [← h] <;>
    exact tab_setTab_ne _ _ _ _ (Ne.symm hne)

/-- Address resolution never touches the pending user table. -/
theorem resolveAddr_app_user_frame (srcLocal : Bool) (st : St) (v a : Value)
    (st' : St) (h : resolveAddr srcLocal st v = Except.ok (a, st')) :
    st'.tgt.pending.tab "app_user" = st.tgt.pending.tab "app_user" := by
  simp only [resolveAddr] at h
  cases h1 : (st.srcDB.tab "app_addressrd").rows.find?
      (fun r => rowGet r "id" == v) with
  | none =>
    simp only [h1] at h
    exact absurd h (by simp)
  | some srcRow =>
    simp only [h1] at h
    cases h2 : (st.tgt.pending.tab "app_addressrd").rows.find?
        (fun r => rowGet r "address_sha1"
          == rowGet srcRow "address_sha1") with
    | some tgtRow =>
      rw [h2] at h
      simp at h
      rw [← h.2]
    | none =>
      rw [h2] at h
      simp at h
      rw [← h.2]
      simp only [ConnState.commit]
      exact tab_setTab_ne _ _ _ _ (by decide)

/-- Processing any table other than the user table leaves the pending user
table unchanged. -/
theorem processTable_app_user_frame (inp : CloneInput)
    (srcLocal tgtLocal : Bool) (u pw : Value) (st : St) (table : String)
    (st' : St)
    (h : processTable inp srcLocal tgtLocal u pw st table = Except.ok st')
    (hne : table ≠ "app_user") :
    st'.tgt.pending.tab "app_user" = st.tgt.pending.tab "app_user" := by
  have hbeq : (table == "app_user") = false := by
    simpa using hne
  simp only [processTable, hbeq, Bool.false_eq_true, if_false] at h
  split at h
  · injection h with h
    rw [← h]
  · split at h
    · exact absurd h (by simp)
    · split at h
      · split at h
        · exact absurd h (by simp)
        · split at h
          · exact absurd h (by simp)
          · split at h
            · exact absurd h (by simp)
            · rename_i aE stB heqA
              split at h
              · exact absurd h (by simp)
              · split at h
                · exact absurd h (by simp)
                · rename_i aM stC heqB
                  have hA := resolveAddr_app_user_frame srcLocal _ _ aE stB
                    heqA
                  have hB := resolveAddr_app_user_frame srcLocal stB _ aM
                    stC heqB
                  have hI := insertPhase_app_user_frame tgtLocal table _ _
                    stC st' h hne
                  rw [hI, hB, hA]
      · have hI := insertPhase_app_user_frame tgtLocal table _ _ _ st' h hne
        exact hI

/-- The loop over the dependent tables leaves the pending user table
unchanged. -/
theorem cloneLoop_app_user_frame (inp : CloneInput)
    (srcLocal tgtLocal : Bool) (u pw : Value) (ts : List String)
    (st stF : St)
    (h : cloneLoop inp srcLocal tgtLocal u pw ts st = Except.ok stF)
    (hts : "app_user" ∉ ts) :
    stF.tgt.pending.tab "app_user" = st.tgt.pending.tab "app_user" := by
  induction ts generalizing st with
  | nil =>
    simp only [cloneLoop] at h
    injection h with h
    rw [← h]
  | cons t rest ih =>
    simp only [cloneLoop] at h
    cases hpt : processTable inp srcLocal tgtLocal u pw st t with
    | error es =>
      rw [hpt] at h
      exact absurd h (by simp)
    | ok st1 =>
      rw [hpt] at h
      have h1 := processTable_app_user_frame inp srcLocal tgtLocal u pw st t
        st1 hpt (by intro hx; exact hts (hx ▸ List.mem_cons_self t rest))
      have h2 := ih st1 h (fun hx => hts (List.mem_cons_of_mem t hx))
      rw [h2, h1]

/-- C6: in any successful clone, the target's committed user table contains
the written user row: its email is the supplied target email, its password
is the template-account hash resolved by lines 283-305 (never the source
user's password field as such), its phone number is the fixed placeholder,
and its archived flag is forced to true — in particular for any
production-class target. -/
theorem C6_user_row_fields (inp : CloneInput) (uid : Option Value)
    (pw : Value)
    (hp : fetchTemplatePassword (resolveDevSource inp inp.tgtDB).db
        inp.passwordClone = Except.ok pw)
    (hok : (run_clone inp).outcome = Except.ok uid) :
    ∃ r, r ∈ ((run_clone inp).tgt.committed.tab "app_user").rows ∧
      rowGet r "email" = Value.str inp.target_email ∧
      rowGet r "password" = pw ∧
      rowGet r "phone_number" = Value.str "+13035551234" ∧
      rowGet r "is_archived" = Value.bool true := by
  cases hcb : cloneBody inp with
  | error es =>
    obtain ⟨e, stE⟩ := es
    simp only [run_clone, hcb] at hok
    exact absurd hok (by simp)
  | ok stF =>
    simp only [run_clone, hcb]
    -- the final commit copies pending into committed
    have hcomm : (ConnState.commit stF.tgt).committed = stF.tgt.pending := rfl
    simp only [cloneBody] at hcb
    cases hcs : cloneSetup inp with
    | error es =>
      rw [hcs] at hcb
      exact absurd hcb (by simp)
    | ok t =>
      obtain ⟨u0, pw0, st5⟩ := t
      simp only [hcs] at hcb
      have hinv := cloneSetup_ok_inv inp u0 pw0 st5 hcs
      have hpw : pw0 = pw := by
        have := hinv.2.symm.trans hp
        injection this
      rw [hpw] at hcb
      have hsrc5 : st5.srcDB = inp.srcDB := by
        have := (cloneSetup_srcInv inp).1
        rw [hcs] at this
        exact this
      -- the loop starts with the user table
      rw [show tableList = "app_user" :: tableList.tail from rfl] at hcb
      simp only [cloneLoop] at hcb
      cases hpt : processTable inp
          ((conn_info (some inp.srcConn)).type == "sqlite")
          ((conn_info (some inp.tgtConn)).type == "sqlite") u0 pw st5
          "app_user" with
      | error es =>
        rw [hpt] at hcb
        exact absurd hcb (by simp)
      | ok st6 =>
        rw [hpt] at hcb
        -- the source row for the user exists, so the table is not skipped
        obtain ⟨r0, hr0mem, hr0id⟩ :=
          lookupSrcUser_mem inp.srcDB inp.source_email u0 hinv.1
        have hne : (st5.srcDB.tab "app_user").rows.filter
            (fun r => rowGet r "id" == u0) ≠ [] := by
          rw [hsrc5]
          intro hnil
          have : r0 ∈ (inp.srcDB.tab "app_user").rows.filter
              (fun r => rowGet r "id" == u0) :=
            List.mem_filter.mpr ⟨hr0mem, by rw [hr0id]; exact beq_self_eq_true u0⟩
          rw [hnil] at this
          exact absurd this (List.not_mem_nil r0)
        obtain ⟨r, hrmem, hflds⟩ := processTable_user_row inp
          ((conn_info (some inp.srcConn)).type == "sqlite")
          ((conn_info (some inp.tgtConn)).type == "sqlite") u0 pw st5 st6
          hpt hne
        have hframe := cloneLoop_app_user_frame inp
          ((conn_info (some inp.srcConn)).type == "sqlite")
          ((conn_info (some inp.tgtConn)).type == "sqlite") u0 pw
          tableList.tail st6 stF hcb (by decide)
        refine ⟨r, ?_, hflds⟩
        dsimp only [ConnState.commit]
        rw [hframe]
        exact hrmem

/-- Witness for C6 on the successful clone `inpOk`. -/
theorem C6_witness :
    ∃ r, r ∈ ((run_clone inpOk).tgt.committed.tab "app_user").rows ∧
      rowGet r "email" = Value.str inpOk.target_email ∧
      rowGet r "password" = Value.str "tplhash" ∧
      rowGet r "phone_number" = Value.str "+13035551234" ∧
      rowGet r "is_archived" = Value.bool true :=
  C6_user_row_fields inpOk (some (Value.int 42)) (Value.str "tplhash")
    (by decide) (by decide)

/-- The same request as `inpC7` but against a full-server target: the
RETURNING clause hands back the fresh identifier and it is threaded into the
dependent rows. -/
def inpC7pg : CloneInput :=
  { source_profile := "getfoco_dev", target_profile := "getfoco_b",
    source_email := "a@x.com", target_email := "new@x.com",
    interactive := true, confirmAnswer := false,
    passwordClone := "tpl@x.com",
    srcConn := pgConn "getfoco_dev", tgtConn := pgConn "getfoco_qa",
    srcDB := ⟨[("app_user", ⟨[userRow42, tplRow]⟩),
      ("app_household",
       ⟨[[("id", Value.int 9), ("user_id", Value.int 42),
          ("data", Value.str "d")]]⟩)], schemasStd⟩,
    tgtDB := ⟨[("app_user", ⟨[tgtRow42]⟩)], schemasStd⟩,
    devDB := devDBStd }

/-- C7 (code bug): on a sqlite target taking the new-identity path, the user
insert does not produce a usable new identifier — line 592 stores
`lastrowid`, but lines 610-612 (which run for both backend kinds) call
`fetchone()` on a cursor with no result set and subscript its `None` result,
raising `TypeError`; the clone aborts with nothing committed.  On a
full-server target the identical request succeeds: the store assigns id 43
(≠ 42) and threads it into the dependent `app_household` row, as the claim
describes. -/
theorem C7_sqlite_new_identity_bug :
    (run_clone inpC7).outcome = Except.error CloneErr.fetchOnNoResult ∧
    (run_clone inpC7).tgt.committed = inpC7.tgtDB ∧
    (run_clone inpC7).tgt.pending = inpC7.tgtDB ∧
    (run_clone inpC7pg).outcome = Except.ok (some (Value.int 43)) ∧
    ((run_clone inpC7pg).tgt.committed.tab "app_household").rows
      = [[("user_id", Value.int 43), ("data", Value.str "d"),
          ("id", Value.int 1)]] := by
  decide

end CloneUser
